import Mathlib

/-!
# pvd2abc: a verification development for `VtkToAlembic/PolyDataGetPoint.cxx`

The converter reads a ParaView collection manifest (`.pvd`), and for every record
`(timestep, group, file)` decodes a polygonal mesh and appends it as one sample to the
Alembic object of the record's group.

Modelling conventions.

* `float`/`double` values are exact rationals (`ℚ`); the `double → float` narrowing of
  `push_back` is the identity.
* `std::int32_t`, `std::uint32_t` and `vtkIdType` values are integers; every narrowing
  conversion that the source performs is an explicit wrap (`toInt32`, `toUInt32`).
* `std::map` is an association list with unique keys (`mapFind`, `mapSet`, `mapIndex`);
  `std::set` is a duplicate-free list (`setInsert`). Iteration order of either container is
  never used by the program.
* `assert` is active. A failed assertion stops the run: the result is `Outcome.abort` carrying
  the state reached so far.
* The source does not check the index of a tuple read. A read that leaves the buffer of an
  array yields values that the array does not determine; they are the field `outside` of the
  array, and the run goes on with them.
* The VTK readers and the XML parser are collaborators: the decoded manifest is a `PvdFile`
  and the mesh reader is a function from file names to decoded meshes.
* Text printed on standard output is not modelled.
-/

namespace VtkToAlembic

/-! ## Machine integers -/

/-- Narrowing conversion to `std::int32_t` (two's complement wrap). -/
def toInt32 (x : Int) : Int := (x + 2 ^ 31) % 2 ^ 32 - 2 ^ 31

/-- Conversion to `std::uint32_t`. -/
def toUInt32 (x : Int) : Nat := (x % 2 ^ 32).toNat

/-! ## Results of fallible code -/

/-- The reasons for which the run stops. -/
inductive Abort where
  /-- Failed `assert(root)`. -/
  | noRoot
  /-- Failed `assert(collection)`. -/
  | noCollection
  /-- Failed `assert(polydata)` in `process_vtm`. -/
  | noPolyData
  /-- Failed `assert(npts == 3)`. -/
  | notTriangle
  /-- Failed `assert(normals)`. -/
  | noNormals
  /-- Failed `assert(normals->GetNumberOfComponents() == 3)`. -/
  | normalsWidth
  /-- Failed `assert(colors->GetNumberOfComponents() == 1)`. -/
  | colorsWidth
  deriving DecidableEq

/-- Result of a procedure that mutates a state of type `σ` and may stop the run.
Both alternatives carry the state reached. -/
inductive Outcome (σ : Type) where
  | done : σ → Outcome σ
  | abort : Abort → σ → Outcome σ
  deriving DecidableEq

/-- The state carried by an outcome. -/
def Outcome.state {σ : Type} : Outcome σ → σ
  | .done s => s
  | .abort _ s => s

/-- Whether the procedure ran to its end. -/
def Outcome.isDone {σ : Type} : Outcome σ → Bool
  | .done _ => true
  | .abort _ _ => false

/-! ## Containers -/

/-- Lookup `std::map::find`: the value stored under `k`, if any. -/
def mapFind {α : Type} : List (String × α) → String → Option α
  | [], _ => none
  | (k', v) :: rest, k => if k' = k then some v else mapFind rest k

/-- Assignment through `std::map::operator[]`: overwrite the value under `k`, or insert it. -/
def mapSet {α : Type} : List (String × α) → String → α → List (String × α)
  | [], k, v => [(k, v)]
  | (k', v') :: rest, k, v => if k' = k then (k, v) :: rest else (k', v') :: mapSet rest k v

/-- Read through `std::map::operator[]`: a missing key is inserted with the default value
`dflt`; returns the value and the (possibly extended) map. -/
def mapIndex {α : Type} (m : List (String × α)) (k : String) (dflt : α) :
    α × List (String × α) :=
  match mapFind m k with
  | some v => (v, m)
  | none => (dflt, mapSet m k dflt)

/-- Insertion `std::set::insert`: a value already present is not added again. -/
def setInsert (s : List String) (x : String) : List String :=
  if x ∈ s then s else s ++ [x]

/-! ## VTK data -/

/-- Element type of a `vtkDataArray`, as seen by `SafeDownCast`. -/
inductive ArrayKind where
  | vtkFloatArray
  | vtkDoubleArray
  | other
  deriving DecidableEq

/-- A `vtkDataArray`: a named flat buffer of values, grouped in tuples of
`numberOfComponents` values. `outside i` is what a read of three values at tuple index `i`
yields when it leaves the buffer: the memory around the buffer, which the array does not
determine. -/
structure vtkDataArray where
  name : String
  kind : ArrayKind
  numberOfComponents : Nat
  data : List ℚ
  outside : Int → ℚ × ℚ × ℚ

/-- Cast `vtkFloatArray::SafeDownCast`: null unless the array holds floats. -/
def vtkFloatArray.SafeDownCast : Option vtkDataArray → Option vtkDataArray
  | some a => if a.kind = ArrayKind.vtkFloatArray then some a else none
  | none => none

/-- Cast `vtkDoubleArray::SafeDownCast`: null unless the array holds doubles. -/
def vtkDoubleArray.SafeDownCast : Option vtkDataArray → Option vtkDataArray
  | some a => if a.kind = ArrayKind.vtkDoubleArray then some a else none
  | none => none

/-- Method `GetDataSize()`: the number of values held. -/
def vtkDataArray.GetDataSize (a : vtkDataArray) : Nat := a.data.length

/-- Method `GetValue(i)`. -/
def vtkDataArray.GetValue (a : vtkDataArray) (i : Nat) : Option ℚ := a.data[i]?

/-- Method `GetTupleValue(i, v)` with a three-element destination `v`, where the read stays
in the buffer: the values at positions `i * numberOfComponents + 0, 1, 2`; `none` when one of
these positions is outside the buffer. -/
def vtkDataArray.GetTupleValue (a : vtkDataArray) (i : Int) : Option (ℚ × ℚ × ℚ) :=
  if i < 0 then none
  else
    match a.data[i.toNat * a.numberOfComponents]?,
          a.data[i.toNat * a.numberOfComponents + 1]?,
          a.data[i.toNat * a.numberOfComponents + 2]? with
    | some x, some y, some z => some (x, y, z)
    | _, _, _ => none

/-- Method `GetTupleValue(i, v)` as the source calls it, without a test of `i`: the tuple
when the read stays in the buffer, and whatever lies outside the buffer otherwise. -/
def vtkDataArray.GetTupleValueUnchecked (a : vtkDataArray) (i : Int) : ℚ × ℚ × ℚ :=
  match a.GetTupleValue i with
  | some v => v
  | none => a.outside i

/-- A `vtkPointData`: the active normals attribute and the named arrays. -/
structure vtkPointData where
  normals : Option vtkDataArray
  arrays : List vtkDataArray

/-- Method `GetNormals()`. -/
def vtkPointData.GetNormals (pd : vtkPointData) : Option vtkDataArray := pd.normals

/-- Method `GetScalars(name)` for a non-empty name: the first array of that name. -/
def vtkPointData.GetScalars (pd : vtkPointData) (name : String) : Option vtkDataArray :=
  pd.arrays.find? (fun a => a.name = name)

/-- A `vtkPolyData`: the points (index = point id), the polygon cells (each a list of
point ids) and the point data. -/
structure vtkPolyData where
  points : List (ℚ × ℚ × ℚ)
  polys : List (List Int)
  pointData : vtkPointData

/-! ## The Alembic side -/

/-- A uniform `TimeSampling(timePerCycle, startTime)`. -/
structure TimeSampling where
  timePerCycle : ℚ
  startTime : ℚ
  deriving DecidableEq

/-- The part of an `OArchive` that `process_pvd` touches directly: the registered time
samplings and the scalar properties written on the top object (name, value). -/
structure OArchive where
  timeSamplings : List TimeSampling
  properties : List (String × Nat)
  deriving DecidableEq

/-- Method `addTimeSampling`: the index of an equal sampling already registered, or the index
of the newly registered one. -/
def OArchive.addTimeSampling (archive : OArchive) (ts : TimeSampling) : Nat × OArchive :=
  if archive.timeSamplings.indexOf ts < archive.timeSamplings.length then
    (archive.timeSamplings.indexOf ts, archive)
  else
    (archive.timeSamplings.length,
      { archive with timeSamplings := archive.timeSamplings ++ [ts] })

/-- Reinterpretation of a flat float buffer as `size()/3` three-component vectors
(`reinterpret_cast<V3f const *>(v.data()), v.size()/3`). -/
def asV3 : List ℚ → List (ℚ × ℚ × ℚ)
  | a :: b :: c :: rest => (a, b, c) :: asV3 rest
  | _ => []

/-- An `OPolyMeshSchema::Sample`: positions, face indices, face counts, the (empty) UV
sample and the face-varying normals. -/
structure MeshSample where
  positions : List (ℚ × ℚ × ℚ)
  faceIndices : List Int
  faceCounts : List Int
  uvs : List (ℚ × ℚ)
  normals : List (ℚ × ℚ × ℚ)
  deriving DecidableEq

/-- An `OC3fGeomParam::Sample`: the color values and the unsigned indices into them. -/
structure ColorSample where
  colors : List (ℚ × ℚ × ℚ)
  indices : List Nat
  deriving DecidableEq

/-- An `OPolyMesh`: its name and the samples set so far on its schema. -/
structure OPolyMesh where
  name : String
  schema : List MeshSample
  deriving DecidableEq

/-- The class `VtpAbc`: one Alembic object. `_xform` is the name of the transform node,
`_visible` holds the samples set so far on the visibility property, and `_colorset` is `none`
while the pointer is null, and otherwise holds the samples set so far on the color set. -/
structure VtpAbc where
  _xform : String
  _polymesh : OPolyMesh
  _visible : List Int
  _colorset : Option (List ColorSample)
  deriving DecidableEq

/-- Constructor `VtpAbc(name, archive, ts)`. -/
def VtpAbc.new (name : String) : VtpAbc :=
  { _xform := name, _polymesh := { name := name ++ "Shape", schema := [] }, _visible := [],
    _colorset := none }

/-- Method `mesh()`: the schema of the mesh, seen as the samples set on it. -/
def VtpAbc.mesh (self : VtpAbc) : List MeshSample := self._polymesh.schema

/-- Method `addMeshSample`. -/
def VtpAbc.addMeshSample (self : VtpAbc) (points : List ℚ) (indices counts : List Int)
    (normals : List ℚ) (visible : Bool) : VtpAbc :=
  let mesh_samp : MeshSample :=
    { positions := asV3 points, faceIndices := indices, faceCounts := counts, uvs := [],
      normals := asV3 normals }
  { self with
    _polymesh := { self._polymesh with schema := self.mesh ++ [mesh_samp] }
    _visible := self._visible ++ [if visible then -1 else 0] }

/-- Method `_init_colorset`. -/
def VtpAbc._init_colorset (self : VtpAbc) : VtpAbc :=
  { self with _colorset := some [] }

/-- Method `addColorSample`. -/
def VtpAbc.addColorSample (self : VtpAbc) (indices : List Int) (colors : List ℚ) : VtpAbc :=
  let self1 := if self._colorset.isNone then self._init_colorset else self
  let uindices := indices.map toUInt32
  let csamp : ColorSample := { colors := asV3 colors, indices := uindices }
  { self1 with _colorset := self1._colorset.map (fun samples => samples ++ [csamp]) }

/-! ## `process_polydata` -/

/-- The loop extracting points: three `push_back`s per point, in point-id order. -/
def pointsLoop : List (ℚ × ℚ × ℚ) → List ℚ → List ℚ
  | [], points => points
  | (p0, p1, p2) :: rest, points => pointsLoop rest (points ++ [p0, p1, p2])

/-- The cell traversal: `none` when `assert(npts == 3)` fails; otherwise the accumulated
`(indices, counts)`. -/
def cellsLoop : List (List Int) → List Int × List Int → Option (List Int × List Int)
  | [], acc => some acc
  | pts :: rest, (indices, counts) =>
    if pts.length = 3 then
      cellsLoop rest (indices ++ pts.map toInt32, counts ++ [toInt32 pts.length])
    else none

/-- The loop expanding normals to face corners: one tuple read and three `push_back`s per
face index. The index is not tested, so a read may leave the buffer; the loop goes on with
the values it then gets. -/
def normsLoop (normals : vtkDataArray) : List Int → List ℚ → List ℚ
  | [], norms => norms
  | i :: rest, norms =>
    match normals.GetTupleValueUnchecked i with
    | (v0, v1, v2) => normsLoop normals rest (norms ++ [v0, v1, v2])

/-- Constant `colorRangeLo`. -/
def colorRangeLo : ℚ := -1.3

/-- Constant `colorRangeHi`. -/
def colorRangeHi : ℚ := 1.3

/-- The value `c` computed in the color loop. -/
def colorValue (value : ℚ) : ℚ :=
  min (max ((value - colorRangeLo) / (colorRangeHi - colorRangeLo)) 0) 1

/-- The color loop over the values of the scalar array: three `push_back`s of `c` each. -/
def colsLoop : List ℚ → List ℚ → List ℚ
  | [], cols => cols
  | value :: rest, cols =>
    colsLoop rest (cols ++ [colorValue value, colorValue value, colorValue value])

/-- The chain of lookups selecting the scalar array used for coloring. -/
def selectColors (pointData : vtkPointData) : Option vtkDataArray :=
  let colors := vtkDoubleArray.SafeDownCast (pointData.GetScalars "Bnn")
  let colors :=
    if colors.isNone then vtkDoubleArray.SafeDownCast (pointData.GetScalars "WeylB_NN_AhA.dump")
    else colors
  let colors :=
    if colors.isNone then vtkDoubleArray.SafeDownCast (pointData.GetScalars "WeylB_NN_AhB.dump")
    else colors
  let colors :=
    if colors.isNone then vtkDoubleArray.SafeDownCast (pointData.GetScalars "WeylB_NN_AhC.dump")
    else colors
  colors

/-- The function `process_polydata`. -/
def process_polydata (polydata : vtkPolyData) (visible : Bool) (vtpabc : VtpAbc) :
    Outcome VtpAbc :=
  let points := pointsLoop polydata.points []
  match cellsLoop polydata.polys ([], []) with
  | none => .abort .notTriangle vtpabc
  | some (indices, counts) =>
    match vtkFloatArray.SafeDownCast polydata.pointData.GetNormals with
    | none => .abort .noNormals vtpabc
    | some normals =>
      if normals.numberOfComponents ≠ 3 then .abort .normalsWidth vtpabc
      else
        let norms := normsLoop normals indices []
        let vtpabc1 := vtpabc.addMeshSample points indices counts norms visible
        match selectColors polydata.pointData with
        | none => .done vtpabc1
        | some colors =>
          if colors.numberOfComponents ≠ 1 then .abort .colorsWidth vtpabc1
          else .done (vtpabc1.addColorSample indices (colsLoop colors.data []))

/-- The function `process_vtm`; `reader` decodes a file into its single polygonal dataset,
`none` when there is none. -/
def process_vtm (reader : String → Option vtkPolyData) (filename : String) (visible : Bool)
    (vtpabc : VtpAbc) : Outcome VtpAbc :=
  match reader filename with
  | none => .abort .noPolyData vtpabc
  | some polydata => process_polydata polydata visible vtpabc

/-! ## `process_pvd` -/

/-- One `DataSet` element of the collection. -/
structure DataSet where
  timestep : String
  group : String
  file : String
  deriving DecidableEq

/-- The parsed manifest. -/
inductive PvdFile where
  /-- The parser produced no root element. -/
  | noRoot
  /-- The root has no nested `Collection` element. -/
  | noCollection
  /-- The nested elements of the `Collection`, in order. -/
  | collection (datasets : List DataSet)
  deriving DecidableEq

/-- The local state of `process_pvd`, with the archive. -/
structure PvdState where
  archive : OArchive
  vtpabcs : List (String × VtpAbc)
  last_file : List (String × String)
  timestamps : List String
  deriving DecidableEq

/-- The state when the loop is entered: no object, the two seeded `last_file` entries, no
timestamp. -/
def PvdState.init (archive : OArchive) : PvdState :=
  { archive := archive
    vtpabcs := []
    last_file :=
      mapSet (mapSet [] "source9218" "Kip3B/Kip3B_source9218T0000.vtm")
        "source10267" "Kip3B/Kip3B_source10267T0000.vtm"
    timestamps := [] }

/-- The body of the loop of `process_pvd` for one element. The null entry that
`vtpabcs[group]` creates for a new group is filled by the next statement, so the map is
updated once, with the object after `process_vtm` has worked on it. -/
def process_pvd_body (reader : String → Option vtkPolyData) (st : PvdState) (dataset : DataSet) :
    Outcome PvdState :=
  let timestamps := setInsert st.timestamps dataset.timestep
  let vtpabc :=
    match mapFind st.vtpabcs dataset.group with
    | some v => v
    | none => VtpAbc.new dataset.group
  let last := mapIndex st.last_file dataset.group ""
  let visible := dataset.file != last.1
  match process_vtm reader dataset.file visible vtpabc with
  | .abort e v =>
    .abort e
      { st with
        timestamps := timestamps
        vtpabcs := mapSet st.vtpabcs dataset.group v
        last_file := last.2 }
  | .done v =>
    .done
      { st with
        timestamps := timestamps
        vtpabcs := mapSet st.vtpabcs dataset.group v
        last_file := mapSet last.2 dataset.group dataset.file }

/-- The loop of `process_pvd` over the nested elements. -/
def process_pvd_loop (reader : String → Option vtkPolyData) :
    List DataSet → PvdState → Outcome PvdState
  | [], st => .done st
  | dataset :: rest, st =>
    match process_pvd_body reader st dataset with
    | .done st1 => process_pvd_loop reader rest st1
    | .abort e st1 => .abort e st1

/-- The name of the sample-count property, `std::to_string(tsIndex) + ".samples"`. -/
def sampsampName (tsIndex : Nat) : String := toString tsIndex ++ ".samples"

/-- The time sampling that `process_pvd` registers, `TimeSampling(1.0/24.0, 0.0)`. -/
def frameSampling : TimeSampling := { timePerCycle := 1 / 24, startTime := 0 }

/-- The function `process_pvd`. -/
def process_pvd (reader : String → Option vtkPolyData) (pvd : PvdFile) (archive : OArchive) :
    Outcome PvdState :=
  let ts : TimeSampling := frameSampling
  let added := archive.addTimeSampling ts
  let tsIndex := added.1
  let st0 : PvdState := { archive := added.2, vtpabcs := [], last_file := [], timestamps := [] }
  match pvd with
  | .noRoot => .abort .noRoot st0
  | .noCollection => .abort .noCollection st0
  | .collection datasets =>
    match process_pvd_loop reader datasets (PvdState.init added.2) with
    | .abort e st => .abort e st
    | .done st =>
      .done
        { st with
          archive :=
            { st.archive with
              properties :=
                st.archive.properties ++
                  [(sampsampName tsIndex, st.timestamps.length % 2 ^ 32)] } }

/-! ## Vocabulary of the statements -/

/-- The components of a list of three-component vectors, laid out flat. -/
def flat3 (l : List (ℚ × ℚ × ℚ)) : List ℚ :=
  l.flatMap (fun p => [p.1, p.2.1, p.2.2])

/-- The flattened face-vertex index list of a mesh: the point ids of the cells in traversal
order, each narrowed to `std::int32_t`. -/
def flatIndices (polydata : vtkPolyData) : List Int :=
  polydata.polys.flatten.map toInt32

/-- Every face of the mesh is a triangle. -/
def TrianglesOnly (polydata : vtkPolyData) : Prop :=
  ∀ pts ∈ polydata.polys, pts.length = 3

/-- The number of tuples of an array, `GetNumberOfTuples()`. -/
def vtkDataArray.GetNumberOfTuples (a : vtkDataArray) : Nat :=
  a.data.length / a.numberOfComponents

/-- The normals are present as a float array of three components, and every face index
addresses one of its tuples. -/
def NormalsOk (polydata : vtkPolyData) : Prop :=
  match vtkFloatArray.SafeDownCast polydata.pointData.GetNormals with
  | some normals =>
    normals.numberOfComponents = 3 ∧
      ∀ i ∈ flatIndices polydata, 0 ≤ i ∧ i.toNat < normals.GetNumberOfTuples
  | none => False

/-- The scalar array selected for coloring, when there is one, has one component. -/
def ColorsOk (polydata : vtkPolyData) : Prop :=
  match selectColors polydata.pointData with
  | some colors => colors.numberOfComponents = 1
  | none => True

/-- A mesh that passes every check of `process_polydata` and whose face indices all address
tuples of the normals. -/
def ValidMesh (polydata : vtkPolyData) : Prop :=
  TrianglesOnly polydata ∧ NormalsOk polydata ∧ ColorsOk polydata

instance (polydata : vtkPolyData) : Decidable (TrianglesOnly polydata) := by
  unfold TrianglesOnly; infer_instance

instance (polydata : vtkPolyData) : Decidable (NormalsOk polydata) := by
  unfold NormalsOk; split <;> infer_instance

instance (polydata : vtkPolyData) : Decidable (ColorsOk polydata) := by
  unfold ColorsOk; split <;> infer_instance

instance (polydata : vtkPolyData) : Decidable (ValidMesh polydata) := by
  unfold ValidMesh; infer_instance

/-! ## Concrete inputs -/

/-- Per-point normals of a mesh of `n` points in the plane `z = 0`; around the buffer the
memory holds the value 7. -/
def planeNormals (n : Nat) : vtkDataArray :=
  { name := "Normals", kind := ArrayKind.vtkFloatArray, numberOfComponents := 3,
    data := flat3 (List.replicate n (0, 0, 1)), outside := fun _ => (7, 7, 7) }

/-- A mesh of one triangle, without any scalar field. -/
def triangleMesh : vtkPolyData :=
  { points := [(0, 0, 0), (1, 0, 0), (0, 1, 0)]
    polys := [[0, 1, 2]]
    pointData := { normals := some (planeNormals 3), arrays := [] } }

/-- The scalar field `Bnn` of the square mesh. -/
def squareBnn : vtkDataArray :=
  { name := "Bnn", kind := ArrayKind.vtkDoubleArray, numberOfComponents := 1,
    data := [-2, 0, 2, 0], outside := fun _ => (0, 0, 0) }

/-- A unit square of four points cut in two triangles, with the scalar field `Bnn`. -/
def squareMesh : vtkPolyData :=
  { points := [(0, 0, 0), (1, 0, 0), (1, 1, 0), (0, 1, 0)]
    polys := [[0, 1, 2], [0, 2, 3]]
    pointData := { normals := some (planeNormals 4), arrays := [squareBnn] } }

/-- A unit square kept as a single four-vertex face. -/
def quadMesh : vtkPolyData :=
  { points := [(0, 0, 0), (1, 0, 0), (1, 1, 0), (0, 1, 0)]
    polys := [[0, 1, 2, 3]]
    pointData := { normals := some (planeNormals 4), arrays := [] } }

/-! ## Observations on the state of `process_pvd` -/

/-- The object of group `g`: the one held by `vtpabcs`, or a fresh object without any
sample when none has been created yet. -/
def PvdState.track (st : PvdState) (g : String) : VtpAbc :=
  (mapFind st.vtpabcs g).getD (VtpAbc.new g)

/-- The value that `last_file[g]` reads: the stored file, or the empty string that
`operator[]` inserts for a missing key. -/
def PvdState.lastFile (st : PvdState) (g : String) : String :=
  (mapFind st.last_file g).getD ""

/-- The records of group `g`, in manifest order. -/
def recordsOf (datasets : List DataSet) (g : String) : List DataSet :=
  datasets.filter (fun d => d.group = g)

/-- The visibility codes of a run of files of one group, given the file last seen. -/
def visCodes : String → List String → List Int
  | _, [] => []
  | last, file :: rest => (if (file != last) = true then -1 else 0) :: visCodes file rest

/-- The file decodes to a mesh that passes the checks of `process_polydata`. -/
def ValidFile (reader : String → Option vtkPolyData) (filename : String) : Prop :=
  match reader filename with
  | some polydata => ValidMesh polydata
  | none => False

instance (reader : String → Option vtkPolyData) (filename : String) :
    Decidable (ValidFile reader filename) := by
  unfold ValidFile
  split <;> infer_instance

/-- Every file of the manifest decodes to a mesh that passes the checks of
`process_polydata`. -/
def ValidManifest (reader : String → Option vtkPolyData) (datasets : List DataSet) : Prop :=
  ∀ d ∈ datasets, ValidFile reader d.file

instance (reader : String → Option vtkPolyData) (datasets : List DataSet) :
    Decidable (ValidManifest reader datasets) := by
  unfold ValidManifest
  infer_instance

/-- The distinct timestep strings of a manifest. -/
def timestepsOf (datasets : List DataSet) : Finset String :=
  (datasets.map (fun d => d.timestep)).toFinset

/-- A reader that knows three files: `a.vtm` and `c.vtm` hold the triangle, `b.vtm` holds the
square. -/
def sampleReader (filename : String) : Option vtkPolyData :=
  if filename = "a.vtm" then some triangleMesh
  else if filename = "b.vtm" then some squareMesh
  else if filename = "c.vtm" then some triangleMesh
  else none

/-- An archive as created: the default time sampling at index 0, no property. -/
def emptyArchive : OArchive :=
  { timeSamplings := [{ timePerCycle := 1, startTime := 0 }], properties := [] }

/-- Two records of group `A`, at timesteps `0` and `1`, naming two different files. -/
def manifestA : List DataSet :=
  [{ timestep := "0", group := "A", file := "a.vtm" },
   { timestep := "1", group := "A", file := "b.vtm" }]

/-- Two groups interleaved: `A` shows `a.vtm`, `a.vtm`, `b.vtm`; between them `B` shows
`b.vtm` and `c.vtm`. -/
def manifestInterleaved : List DataSet :=
  [{ timestep := "0", group := "A", file := "a.vtm" },
   { timestep := "0", group := "B", file := "b.vtm" },
   { timestep := "1", group := "A", file := "a.vtm" },
   { timestep := "1", group := "B", file := "c.vtm" },
   { timestep := "2", group := "A", file := "b.vtm" }]

/-- A seeded group whose first record names a file other than the seeded one. -/
def manifestSeeded : List DataSet :=
  [{ timestep := "0", group := "source9218", file := "a.vtm" },
   { timestep := "1", group := "source9218", file := "b.vtm" }]

/-- Group `A` has two records at timestep `0` and none at timestep `1`. -/
def manifestRepeated : List DataSet :=
  [{ timestep := "0", group := "A", file := "a.vtm" },
   { timestep := "0", group := "A", file := "b.vtm" },
   { timestep := "1", group := "B", file := "a.vtm" }]

/-- The reader of the examples, which knows in addition the file seeded for group
`source9218`. -/
def seededReader (filename : String) : Option vtkPolyData :=
  if filename = "Kip3B/Kip3B_source9218T0000.vtm" then some triangleMesh
  else sampleReader filename

/-- A seeded group whose first record names the seeded file. -/
def manifestSeedFile : List DataSet :=
  [{ timestep := "0", group := "source9218", file := "Kip3B/Kip3B_source9218T0000.vtm" },
   { timestep := "1", group := "source9218", file := "a.vtm" }]

/-- The triangle without a normals attribute. -/
def noNormalsMesh : vtkPolyData :=
  { triangleMesh with pointData := { normals := none, arrays := [] } }

/-- The triangle with a normals attribute of two components. -/
def flatNormalsMesh : vtkPolyData :=
  { triangleMesh with
    pointData :=
      { normals := some { planeNormals 3 with numberOfComponents := 2, data := [0, 0, 0, 0, 0, 0] }
        arrays := [] } }

/-- The triangle with a scalar field `Bnn` of two components. -/
def wideColorMesh : vtkPolyData :=
  { triangleMesh with
    pointData :=
      { normals := some (planeNormals 3)
        arrays := [{ squareBnn with numberOfComponents := 2, data := [0, 0, 0, 0, 0, 0] }] } }

/-- A reader for which every file name, the empty one included, holds the triangle. -/
def triangleReader (_filename : String) : Option vtkPolyData := some triangleMesh

/-- One record of group `A` whose file name is empty. -/
def manifestEmptyName : List DataSet :=
  [{ timestep := "0", group := "A", file := "" }]

/-- The triangle with a face index that names no point. -/
def strayIndexMesh : vtkPolyData :=
  { triangleMesh with polys := [[0, 1, 5]] }

/-! ## Sequences of calls on a `VtpAbc` -/

/-- A call of one of the two methods that add samples to a `VtpAbc`, with its arguments. -/
inductive Call where
  | addMeshSample (points : List ℚ) (indices counts : List Int) (normals : List ℚ)
      (visible : Bool)
  | addColorSample (indices : List Int) (colors : List ℚ)

/-- The object after one call. -/
def VtpAbc.call (self : VtpAbc) : Call → VtpAbc
  | Call.addMeshSample points indices counts normals visible =>
    self.addMeshSample points indices counts normals visible
  | Call.addColorSample indices colors => self.addColorSample indices colors

/-- The object after a sequence of calls, made in order. -/
def VtpAbc.calls (self : VtpAbc) (cs : List Call) : VtpAbc := cs.foldl VtpAbc.call self

/-- The mesh sample that a call hands to the mesh schema, if it is an `addMeshSample`. -/
def Call.meshSample : Call → Option MeshSample
  | Call.addMeshSample points indices counts normals _ =>
    some { positions := asV3 points, faceIndices := indices, faceCounts := counts, uvs := [],
           normals := asV3 normals }
  | Call.addColorSample _ _ => none

/-- The visibility code of a call, if it is an `addMeshSample`: `-1` for visible, `0` for
not visible. -/
def Call.visibleCode : Call → Option Int
  | Call.addMeshSample _ _ _ _ true => some (-1)
  | Call.addMeshSample _ _ _ _ false => some 0
  | Call.addColorSample _ _ => none

/-! ## The candidate color fields -/

/-- The names tried for the color array, in the order in which `process_polydata` tries
them. -/
def colorFieldNames : List String :=
  ["Bnn", "WeylB_NN_AhA.dump", "WeylB_NN_AhB.dump", "WeylB_NN_AhC.dump"]

/-- The mesh carries an array under at least one of the candidate names. -/
def CarriesColorField (polydata : vtkPolyData) : Prop :=
  ∃ name ∈ colorFieldNames, (polydata.pointData.GetScalars name).isSome = true

/-- The mesh carries an array of doubles under at least one of the candidate names. -/
def CarriesDoubleColorField (polydata : vtkPolyData) : Prop :=
  ∃ name ∈ colorFieldNames,
    (vtkDoubleArray.SafeDownCast (polydata.pointData.GetScalars name)).isSome = true

instance (polydata : vtkPolyData) : Decidable (CarriesColorField polydata) := by
  unfold CarriesColorField; infer_instance

instance (polydata : vtkPolyData) : Decidable (CarriesDoubleColorField polydata) := by
  unfold CarriesDoubleColorField; infer_instance

/-- The scalar field `Bnn` stored as an array of floats, one value per point of the
triangle. -/
def floatBnn : vtkDataArray :=
  { name := "Bnn", kind := ArrayKind.vtkFloatArray, numberOfComponents := 1,
    data := [0, 0, 0], outside := fun _ => (0, 0, 0) }

/-- The scalar field `WeylB_NN_AhA.dump` stored as an array of doubles, one value per point
of the triangle. -/
def doubleWeylA : vtkDataArray :=
  { name := "WeylB_NN_AhA.dump", kind := ArrayKind.vtkDoubleArray, numberOfComponents := 1,
    data := [0, 0, 0], outside := fun _ => (0, 0, 0) }

/-- The triangle carrying `Bnn` as floats and `WeylB_NN_AhA.dump` as doubles. -/
def mixedFieldsMesh : vtkPolyData :=
  { triangleMesh with
    pointData := { normals := some (planeNormals 3), arrays := [floatBnn, doubleWeylA] } }

/-- The triangle carrying `Bnn` as floats and no other field. -/
def floatBnnMesh : vtkPolyData :=
  { triangleMesh with
    pointData := { normals := some (planeNormals 3), arrays := [floatBnn] } }

/-- The file of the record decodes to a mesh that carries an array of doubles under one of
the candidate names. -/
def recordHasColor (reader : String → Option vtkPolyData) (d : DataSet) : Bool :=
  match reader d.file with
  | some polydata => decide (CarriesDoubleColorField polydata)
  | none => false

/-- The records of group `g` whose mesh carries an array of doubles under one of the
candidate names. -/
def colorRecordsOf (reader : String → Option vtkPolyData) (datasets : List DataSet)
    (g : String) : List DataSet :=
  (recordsOf datasets g).filter (recordHasColor reader)

/-- The records of group `g` whose mesh carries an array, of any kind, under one of the
candidate names. -/
def fieldRecordsOf (reader : String → Option vtkPolyData) (datasets : List DataSet)
    (g : String) : List DataSet :=
  (recordsOf datasets g).filter (fun d =>
    match reader d.file with
    | some polydata => decide (CarriesColorField polydata)
    | none => false)

/-- The color samples committed to an object: none while the color set does not exist. -/
def VtpAbc.colorSamples (self : VtpAbc) : List ColorSample := self._colorset.getD []

/-- Two frames of group `A`: the first carries `Bnn` (the square), the second does not (the
triangle). -/
def manifestColorThenNone : List DataSet :=
  [{ timestep := "0", group := "A", file := "b.vtm" },
   { timestep := "1", group := "A", file := "a.vtm" }]

/-- A reader whose file `f.vtm` holds the triangle carrying `Bnn` as floats. -/
def floatFieldReader (filename : String) : Option vtkPolyData :=
  if filename = "f.vtm" then some floatBnnMesh else none

/-- One frame of group `A`, whose mesh carries `Bnn` as floats. -/
def manifestFloatField : List DataSet :=
  [{ timestep := "0", group := "A", file := "f.vtm" }]

/-! ## Lemmas on the loops of `process_polydata` -/

theorem flat3_nil : flat3 [] = [] := rfl

theorem flat3_cons (a b c : ℚ) (l : List (ℚ × ℚ × ℚ)) :
    flat3 ((a, b, c) :: l) = a :: b :: c :: flat3 l := by
  simp [flat3]

theorem asV3_flat3 (l : List (ℚ × ℚ × ℚ)) : asV3 (flat3 l) = l := by
  induction l with
  | nil => rfl
  | cons p l ih =>
    obtain ⟨a, b, c⟩ := p
    rw [flat3_cons, asV3, ih]

theorem flat3_append (l₁ l₂ : List (ℚ × ℚ × ℚ)) : flat3 (l₁ ++ l₂) = flat3 l₁ ++ flat3 l₂ := by
  simp [flat3]

theorem flat3_length (l : List (ℚ × ℚ × ℚ)) : (flat3 l).length = 3 * l.length := by
  induction l with
  | nil => rfl
  | cons p l ih =>
    obtain ⟨a, b, c⟩ := p
    rw [flat3_cons]
    simp only [List.length_cons, ih]
    omega

theorem pointsLoop_eq (ps : List (ℚ × ℚ × ℚ)) (acc : List ℚ) :
    pointsLoop ps acc = acc ++ flat3 ps := by
  induction ps generalizing acc with
  | nil => simp [pointsLoop, flat3]
  | cons p ps ih =>
    obtain ⟨a, b, c⟩ := p
    rw [pointsLoop, ih, flat3_cons]
    simp

theorem colsLoop_eq (vs : List ℚ) (acc : List ℚ) :
    colsLoop vs acc =
      acc ++ flat3 (vs.map (fun v => (colorValue v, colorValue v, colorValue v))) := by
  induction vs generalizing acc with
  | nil => simp [colsLoop, flat3]
  | cons v vs ih =>
    rw [colsLoop, ih, List.map_cons, flat3_cons]
    simp

theorem toInt32_three : toInt32 ((3 : Nat) : Int) = 3 := by
  decide

theorem cellsLoop_triangles (cells : List (List Int)) (acc : List Int × List Int)
    (h : ∀ pts ∈ cells, pts.length = 3) :
    cellsLoop cells acc =
      some (acc.1 ++ cells.flatten.map toInt32, acc.2 ++ List.replicate cells.length 3) := by
  induction cells generalizing acc with
  | nil => simp [cellsLoop]
  | cons pts cells ih =>
    obtain ⟨indices, counts⟩ := acc
    have h3 : pts.length = 3 := h pts (List.mem_cons_self _ _)
    rw [cellsLoop, if_pos h3, ih _ (fun q hq => h q (List.mem_cons_of_mem _ hq)), h3,
      toInt32_three]
    simp [List.replicate_succ]

theorem cellsLoop_not_triangle (cells : List (List Int)) (acc : List Int × List Int)
    (h : ∃ pts ∈ cells, pts.length ≠ 3) : cellsLoop cells acc = none := by
  induction cells generalizing acc with
  | nil => simp at h
  | cons pts cells ih =>
    obtain ⟨indices, counts⟩ := acc
    rw [cellsLoop]
    by_cases h3 : pts.length = 3
    · rw [if_pos h3]
      apply ih
      obtain ⟨q, hq, hne⟩ := h
      rcases List.mem_cons.mp hq with rfl | hq
      · exact absurd h3 hne
      · exact ⟨q, hq, hne⟩
    · rw [if_neg h3]

theorem flatten_length_of_triangles (cells : List (List Int))
    (h : ∀ pts ∈ cells, pts.length = 3) : cells.flatten.length = 3 * cells.length := by
  induction cells with
  | nil => rfl
  | cons pts cells ih =>
    have h3 : pts.length = 3 := h pts (List.mem_cons_self _ _)
    simp only [List.flatten_cons, List.length_append, List.length_cons, h3,
      ih (fun q hq => h q (List.mem_cons_of_mem _ hq))]
    omega

theorem GetTupleValue_in_range (a : vtkDataArray) (i : Int) (hc : a.numberOfComponents = 3)
    (h0 : 0 ≤ i) (hi : i.toNat < a.GetNumberOfTuples) :
    ∃ t, a.GetTupleValue i = some t := by
  unfold vtkDataArray.GetNumberOfTuples at hi
  rw [hc] at hi
  have hlen : i.toNat * 3 + 2 < a.data.length := by omega
  unfold vtkDataArray.GetTupleValue
  rw [if_neg (not_lt.mpr h0), hc]
  rw [List.getElem?_eq_getElem (by omega), List.getElem?_eq_getElem (by omega),
    List.getElem?_eq_getElem hlen]
  exact ⟨_, rfl⟩

theorem normsLoop_eq (normals : vtkDataArray) (indices : List Int) (acc : List ℚ) :
    normsLoop normals indices acc =
      acc ++ flat3 (indices.map normals.GetTupleValueUnchecked) := by
  induction indices generalizing acc with
  | nil => simp [normsLoop, flat3]
  | cons i indices ih =>
    rw [normsLoop]
    rcases hv : normals.GetTupleValueUnchecked i with ⟨v0, v1, v2⟩
    simp only [ih, List.map_cons, hv, flat3_cons]
    simp

theorem GetTupleValueUnchecked_of_some (a : vtkDataArray) (i : Int) (t : ℚ × ℚ × ℚ)
    (h : a.GetTupleValue i = some t) : a.GetTupleValueUnchecked i = t := by
  unfold vtkDataArray.GetTupleValueUnchecked
  rw [h]

theorem GetTupleValueUnchecked_of_none (a : vtkDataArray) (i : Int)
    (h : a.GetTupleValue i = none) : a.GetTupleValueUnchecked i = a.outside i := by
  unfold vtkDataArray.GetTupleValueUnchecked
  rw [h]

theorem normsLoop_in_range (normals : vtkDataArray) (indices : List Int) (acc : List ℚ)
    (h : ∀ i ∈ indices, ∃ t, normals.GetTupleValue i = some t) :
    ∃ ts, normsLoop normals indices acc = acc ++ flat3 ts ∧
      indices.map normals.GetTupleValue = ts.map some := by
  refine ⟨indices.map normals.GetTupleValueUnchecked, normsLoop_eq normals indices acc, ?_⟩
  rw [List.map_map]
  apply List.map_congr_left
  intro i hi
  obtain ⟨t, ht⟩ := h i hi
  rw [Function.comp_apply, GetTupleValueUnchecked_of_some normals i t ht, ht]

/-! ## `process_polydata` on a mesh with valid geometry -/

/-- The result of `process_polydata` on a mesh whose faces and normals pass the checks: the
geometry sample is committed, and the color part decides the outcome. -/
theorem process_polydata_of_geometry (polydata : vtkPolyData) (visible : Bool) (vtpabc : VtpAbc)
    (normals : vtkDataArray) (htri : TrianglesOnly polydata)
    (hnormals : vtkFloatArray.SafeDownCast polydata.pointData.GetNormals = some normals)
    (hwidth : normals.numberOfComponents = 3)
    (hrange : ∀ i ∈ flatIndices polydata, 0 ≤ i ∧ i.toNat < normals.GetNumberOfTuples) :
    ∃ ts, (flatIndices polydata).map normals.GetTupleValue = ts.map some ∧
      process_polydata polydata visible vtpabc =
        match selectColors polydata.pointData with
        | none =>
          .done (vtpabc.addMeshSample (flat3 polydata.points) (flatIndices polydata)
            (List.replicate polydata.polys.length 3) (flat3 ts) visible)
        | some colors =>
          if colors.numberOfComponents ≠ 1 then
            .abort .colorsWidth (vtpabc.addMeshSample (flat3 polydata.points)
              (flatIndices polydata) (List.replicate polydata.polys.length 3) (flat3 ts) visible)
          else
            .done ((vtpabc.addMeshSample (flat3 polydata.points) (flatIndices polydata)
              (List.replicate polydata.polys.length 3) (flat3 ts) visible).addColorSample
                (flatIndices polydata) (colsLoop colors.data [])) := by
  obtain ⟨ts, hloop, hmap⟩ := normsLoop_in_range normals (flatIndices polydata) []
    (fun i hi => GetTupleValue_in_range normals i hwidth (hrange i hi).1 (hrange i hi).2)
  refine ⟨ts, hmap, ?_⟩
  unfold process_polydata
  rw [cellsLoop_triangles _ _ htri]
  simp only [List.nil_append]
  rw [hnormals]
  simp only [hwidth, ne_eq, not_true_eq_false, if_false]
  unfold flatIndices at hloop
  rw [hloop, pointsLoop_eq]
  simp only [List.nil_append]
  rfl

/-- The result of `process_polydata` on a mesh of triangles with float normals of three
components, whatever the face indices: the geometry sample is committed with the normals that
the unchecked tuple reads give, and the color part decides the outcome. -/
theorem process_polydata_of_triangles (polydata : vtkPolyData) (visible : Bool)
    (vtpabc : VtpAbc) (normals : vtkDataArray) (htri : TrianglesOnly polydata)
    (hnormals : vtkFloatArray.SafeDownCast polydata.pointData.GetNormals = some normals)
    (hwidth : normals.numberOfComponents = 3) :
    process_polydata polydata visible vtpabc =
      match selectColors polydata.pointData with
      | none =>
        .done (vtpabc.addMeshSample (flat3 polydata.points) (flatIndices polydata)
          (List.replicate polydata.polys.length 3)
          (flat3 ((flatIndices polydata).map normals.GetTupleValueUnchecked)) visible)
      | some colors =>
        if colors.numberOfComponents ≠ 1 then
          .abort .colorsWidth (vtpabc.addMeshSample (flat3 polydata.points)
            (flatIndices polydata) (List.replicate polydata.polys.length 3)
            (flat3 ((flatIndices polydata).map normals.GetTupleValueUnchecked)) visible)
        else
          .done ((vtpabc.addMeshSample (flat3 polydata.points) (flatIndices polydata)
            (List.replicate polydata.polys.length 3)
            (flat3 ((flatIndices polydata).map normals.GetTupleValueUnchecked))
              visible).addColorSample
              (flatIndices polydata) (colsLoop colors.data [])) := by
  unfold process_polydata
  rw [cellsLoop_triangles _ _ htri]
  simp only [List.nil_append]
  rw [hnormals]
  simp only [hwidth, ne_eq, not_true_eq_false, if_false]
  rw [normsLoop_eq, pointsLoop_eq]
  simp only [List.nil_append]
  rfl

/-! ## The methods of `VtpAbc` -/

theorem addMeshSample_mesh (self : VtpAbc) (points : List ℚ) (indices counts : List Int)
    (normals : List ℚ) (visible : Bool) :
    (self.addMeshSample points indices counts normals visible).mesh =
      self.mesh ++
        [{ positions := asV3 points, faceIndices := indices, faceCounts := counts, uvs := [],
           normals := asV3 normals }] := rfl

theorem addMeshSample_visible (self : VtpAbc) (points : List ℚ) (indices counts : List Int)
    (normals : List ℚ) (visible : Bool) :
    (self.addMeshSample points indices counts normals visible)._visible =
      self._visible ++ [if visible = true then -1 else 0] := rfl

theorem addMeshSample_colorset (self : VtpAbc) (points : List ℚ) (indices counts : List Int)
    (normals : List ℚ) (visible : Bool) :
    (self.addMeshSample points indices counts normals visible)._colorset = self._colorset := rfl

theorem addColorSample_mesh (self : VtpAbc) (indices : List Int) (colors : List ℚ) :
    (self.addColorSample indices colors).mesh = self.mesh := by
  obtain ⟨xform, polymesh, vis, colorset⟩ := self
  cases colorset <;> rfl

theorem addColorSample_visible (self : VtpAbc) (indices : List Int) (colors : List ℚ) :
    (self.addColorSample indices colors)._visible = self._visible := by
  obtain ⟨xform, polymesh, vis, colorset⟩ := self
  cases colorset <;> rfl

theorem addColorSample_colorset (self : VtpAbc) (indices : List Int) (colors : List ℚ) :
    (self.addColorSample indices colors)._colorset =
      some (self._colorset.getD [] ++
        [{ colors := asV3 colors, indices := indices.map toUInt32 }]) := by
  obtain ⟨xform, polymesh, vis, colorset⟩ := self
  cases colorset <;> rfl

/-! ## Color derivation -/

theorem colorValue_eq (v : ℚ) : colorValue v = min (max ((v + 13 / 10) / (13 / 5)) 0) 1 := by
  unfold colorValue colorRangeLo colorRangeHi
  norm_num

theorem colorValue_nonneg (v : ℚ) : 0 ≤ colorValue v := by
  unfold colorValue
  exact le_min (le_max_right _ _) zero_le_one

theorem colorValue_le_one (v : ℚ) : colorValue v ≤ 1 := by
  unfold colorValue
  exact min_le_right _ _

theorem colorValue_monotone : Monotone colorValue := by
  intro a b hab
  rw [colorValue_eq, colorValue_eq]
  apply min_le_min _ le_rfl
  apply max_le_max _ le_rfl
  apply div_le_div_of_nonneg_right _ (by norm_num)
  linarith

theorem colorValue_of_le_lo (v : ℚ) (h : v ≤ -1.3) : colorValue v = 0 := by
  rw [colorValue_eq]
  have h1 : (v + 13 / 10) / (13 / 5) ≤ 0 := by
    apply div_nonpos_of_nonpos_of_nonneg _ (by norm_num)
    norm_num at h
    linarith
  rw [max_eq_right h1]
  exact min_eq_left zero_le_one

theorem colorValue_of_hi_le (v : ℚ) (h : 1.3 ≤ v) : colorValue v = 1 := by
  rw [colorValue_eq]
  have h1 : 1 ≤ (v + 13 / 10) / (13 / 5) := by
    rw [le_div_iff₀ (by norm_num)]
    norm_num at h
    linarith
  rw [max_eq_left (le_trans zero_le_one h1)]
  exact min_eq_right h1

theorem colorValue_zero : colorValue 0 = 1 / 2 := by
  rw [colorValue_eq]
  norm_num

theorem colsLoop_single (v : ℚ) :
    asV3 (colsLoop [v] []) = [(colorValue v, colorValue v, colorValue v)] := by
  rw [colsLoop_eq, List.nil_append, asV3_flat3]
  rfl

/-- Claim C6. The value `c` that the color loop of `process_polydata` computes is
`min(max((v - (-1.3)) / (1.3 - (-1.3)), 0), 1)` over the rationals; it is monotonically
non-decreasing in `v`, lies in `[0, 1]`, and the triple pushed for `v` is `(0,0,0)` when
`v ≤ -1.3`, `(1,1,1)` when `v ≥ 1.3` and `(1/2,1/2,1/2)` when `v = 0`. -/
theorem C6_color_derivation_monotone_clamped :
    (∀ v : ℚ, colorValue v = min (max ((v - (-1.3)) / (1.3 - (-1.3))) 0) 1) ∧
    Monotone colorValue ∧
    (∀ v : ℚ, 0 ≤ colorValue v ∧ colorValue v ≤ 1) ∧
    (∀ v : ℚ, v ≤ -1.3 → asV3 (colsLoop [v] []) = [(0, 0, 0)]) ∧
    (∀ v : ℚ, 1.3 ≤ v → asV3 (colsLoop [v] []) = [(1, 1, 1)]) ∧
    asV3 (colsLoop [0] []) = [(1 / 2, 1 / 2, 1 / 2)] := by
  refine ⟨fun v => rfl, colorValue_monotone,
    fun v => ⟨colorValue_nonneg v, colorValue_le_one v⟩, ?_, ?_, ?_⟩
  · intro v hv
    rw [colsLoop_single, colorValue_of_le_lo v hv]
  · intro v hv
    rw [colsLoop_single, colorValue_of_hi_le v hv]
  · rw [colsLoop_single, colorValue_zero]

/-- Claim C6 at concrete scalars: `-2` is below the range and gives black, `2` is above it
and gives white. -/
theorem C6_color_derivation_witness :
    ((-2 : ℚ) ≤ -1.3 ∧ asV3 (colsLoop [-2] []) = [(0, 0, 0)]) ∧
    ((1.3 : ℚ) ≤ 2 ∧ asV3 (colsLoop [2] []) = [(1, 1, 1)]) :=
  ⟨⟨by norm_num, C6_color_derivation_monotone_clamped.2.2.2.1 (-2) (by norm_num)⟩,
   ⟨by norm_num, C6_color_derivation_monotone_clamped.2.2.2.2.1 2 (by norm_num)⟩⟩

/-! ## Face-varying normals -/

/-- Claim C7. For a mesh of `N` triangles with one float normal of three components per point
and whose flattened index list holds valid point ids only, the mesh sample that
`process_polydata` commits carries that index list (of length `3N`) and exactly `3N` normals,
the `k`-th being the normal tuple of the point that the `k`-th index names. -/
theorem C7_normals_expanded_per_corner (polydata : vtkPolyData) (visible : Bool)
    (vtpabc : VtpAbc) (normals : vtkDataArray)
    (htri : TrianglesOnly polydata)
    (hnormals : vtkFloatArray.SafeDownCast polydata.pointData.GetNormals = some normals)
    (hwidth : normals.numberOfComponents = 3)
    (hperpoint : normals.GetNumberOfTuples = polydata.points.length)
    (hvalid : ∀ i ∈ flatIndices polydata, 0 ≤ i ∧ i.toNat < polydata.points.length) :
    ∃ samp : MeshSample,
      (process_polydata polydata visible vtpabc).state.mesh =
        vtpabc.mesh ++ [samp] ∧
      samp.faceIndices = flatIndices polydata ∧
      samp.faceIndices.length = 3 * polydata.polys.length ∧
      samp.normals.length = 3 * polydata.polys.length ∧
      ∀ k, k < 3 * polydata.polys.length →
        ∃ i n, samp.faceIndices[k]? = some i ∧ samp.normals[k]? = some n ∧
          normals.GetTupleValue i = some n := by
  obtain ⟨ts, hmap, hrun⟩ := process_polydata_of_geometry polydata visible vtpabc normals htri
    hnormals hwidth (fun i hi => by rw [hperpoint]; exact hvalid i hi)
  have hlen : (flatIndices polydata).length = 3 * polydata.polys.length := by
    unfold flatIndices
    rw [List.length_map, flatten_length_of_triangles _ htri]
  have hts : ts.length = 3 * polydata.polys.length := by
    have := congrArg List.length hmap
    rw [List.length_map, List.length_map] at this
    omega
  refine ⟨{ positions := asV3 (flat3 polydata.points), faceIndices := flatIndices polydata,
            faceCounts := List.replicate polydata.polys.length 3, uvs := [],
            normals := asV3 (flat3 ts) }, ?_, rfl, hlen, ?_, ?_⟩
  · rw [hrun]
    split
    · rfl
    · split
      · rfl
      · simp only [Outcome.state, addColorSample_mesh]
        rfl
  · show (asV3 (flat3 ts)).length = _
    rw [asV3_flat3, hts]
  · intro k hk
    have hk1 : k < (flatIndices polydata).length := by omega
    have hk2 : k < ts.length := by omega
    refine ⟨(flatIndices polydata)[k], ts[k], List.getElem?_eq_getElem hk1, ?_, ?_⟩
    · show (asV3 (flat3 ts))[k]? = _
      rw [asV3_flat3]
      exact List.getElem?_eq_getElem hk2
    · have h1 := congrArg (fun l => l[k]?) hmap
      simp only [List.getElem?_map, List.getElem?_eq_getElem hk1,
        List.getElem?_eq_getElem hk2, Option.map_some'] at h1
      exact Option.some.inj h1

/-- Claim C7 on the square cut in two triangles: six corners, six normals. -/
theorem C7_normals_expanded_witness :
    ∃ samp : MeshSample,
      (process_polydata squareMesh true (VtpAbc.new "A")).state.mesh =
        (VtpAbc.new "A").mesh ++ [samp] ∧
      samp.faceIndices = flatIndices squareMesh ∧
      samp.faceIndices.length = 3 * squareMesh.polys.length ∧
      samp.normals.length = 3 * squareMesh.polys.length ∧
      ∀ k, k < 3 * squareMesh.polys.length →
        ∃ i n, samp.faceIndices[k]? = some i ∧ samp.normals[k]? = some n ∧
          (planeNormals 4).GetTupleValue i = some n :=
  C7_normals_expanded_per_corner squareMesh true (VtpAbc.new "A") (planeNormals 4)
    (by decide) rfl rfl (by decide) (by decide)

/-! ## Non-triangular faces -/

/-- Claim C10. On a mesh with a face whose vertex count is not 3, `process_polydata` stops
on `assert(npts == 3)`, and the object is exactly the one passed in: no mesh sample, no
visibility sample and no color sample has been committed. -/
theorem C10_non_triangle_fails_before_commit (polydata : vtkPolyData) (visible : Bool)
    (vtpabc : VtpAbc) (h : ∃ pts ∈ polydata.polys, pts.length ≠ 3) :
    process_polydata polydata visible vtpabc = Outcome.abort Abort.notTriangle vtpabc := by
  unfold process_polydata
  rw [cellsLoop_not_triangle _ _ h]

/-- Claim C10 on a four-vertex face. -/
theorem C10_non_triangle_witness :
    (∃ pts ∈ quadMesh.polys, pts.length ≠ 3) ∧
    process_polydata quadMesh true (VtpAbc.new "A") =
      Outcome.abort Abort.notTriangle (VtpAbc.new "A") :=
  ⟨⟨[0, 1, 2, 3], by decide, by decide⟩,
   C10_non_triangle_fails_before_commit quadMesh true (VtpAbc.new "A")
     ⟨[0, 1, 2, 3], by decide, by decide⟩⟩

/-! ## Colors -/

theorem toInt32_lt (x : Int) : toInt32 x < 2 ^ 31 := by
  unfold toInt32
  omega

theorem toUInt32_of_nonneg_int32 (x : Int) (h : 0 ≤ toInt32 x) :
    toUInt32 (toInt32 x) = (toInt32 x).toNat := by
  have hlt := toInt32_lt x
  unfold toUInt32
  congr 1
  omega

theorem NormalsOk_elim (polydata : vtkPolyData) (h : NormalsOk polydata) :
    ∃ normals, vtkFloatArray.SafeDownCast polydata.pointData.GetNormals = some normals ∧
      normals.numberOfComponents = 3 ∧
      ∀ i ∈ flatIndices polydata, 0 ≤ i ∧ i.toNat < normals.GetNumberOfTuples := by
  unfold NormalsOk at h
  split at h
  · next normals heq => exact ⟨normals, heq, h.1, h.2⟩
  · exact absurd h id

/-- Claim C9. For a scalar array `s` of `n` values, the flat color list built by the color
loop of `process_polydata` has `3n` floats forming exactly `n` triples, and the `i`-th triple
is `(c, c, c)` with `c = clamp((s[i] + 1.3) / 2.6, 0, 1)`. -/
theorem C9_color_list_grayscale (s : List ℚ) :
    (colsLoop s []).length = 3 * s.length ∧
    colsLoop s [] = flat3 (asV3 (colsLoop s [])) ∧
    (asV3 (colsLoop s [])).length = s.length ∧
    ∀ (i : Nat) (v : ℚ), s[i]? = some v →
      ∃ c : ℚ, c = min (max ((v + 1.3) / 2.6) 0) 1 ∧
        (asV3 (colsLoop s []))[i]? = some (c, c, c) := by
  rw [colsLoop_eq, List.nil_append, asV3_flat3]
  refine ⟨by rw [flat3_length, List.length_map], rfl, List.length_map _ _, ?_⟩
  intro i v hv
  refine ⟨colorValue v, ?_, ?_⟩
  · rw [colorValue_eq]
    norm_num
  · rw [List.getElem?_map, hv]
    rfl

/-- Claim C9 on the scalar array `[-2, 0, 2, 0]`, at position 1. -/
theorem C9_color_list_witness :
    ([-2, 0, 2, 0] : List ℚ)[1]? = some 0 ∧
    ∃ c : ℚ, c = min (max (((0 : ℚ) + 1.3) / 2.6) 0) 1 ∧
      (asV3 (colsLoop [-2, 0, 2, 0] []))[1]? = some (c, c, c) :=
  ⟨rfl, (C9_color_list_grayscale [-2, 0, 2, 0]).2.2.2 1 0 rfl⟩

/-- Claim C8 fails as stated: the square mesh has `N = 2` triangles, so `3N = 6` corners,
but the color sample that `process_polydata` commits holds 4 colors, one per point, next to
its 6 indices. -/
theorem C8_colors_not_per_corner :
    (process_polydata squareMesh true (VtpAbc.new "A")).state._colorset.map
        (List.map (fun samp => (samp.colors.length, samp.indices.length))) = some [(4, 6)] ∧
    3 * squareMesh.polys.length = 6 := by
  decide

/-- Claim C8, amended. For a mesh of `N` triangles with valid normals whose selected color
array has one component, `process_polydata` commits one color sample that holds one color
per scalar value, the `p`-th being the derived gray of the `p`-th value, together with the
`3N` corner indices; the color of corner `k` is found through the index: it is the derived
color of the point that corner `k` references. -/
theorem C8_colors_indexed_by_corner (polydata : vtkPolyData) (visible : Bool) (vtpabc : VtpAbc)
    (colors : vtkDataArray) (htri : TrianglesOnly polydata) (hnorm : NormalsOk polydata)
    (hsel : selectColors polydata.pointData = some colors)
    (hwidth : colors.numberOfComponents = 1) :
    ∃ (vtpabc1 : VtpAbc) (samp : ColorSample),
      process_polydata polydata visible vtpabc = Outcome.done vtpabc1 ∧
      vtpabc1._colorset = some (vtpabc._colorset.getD [] ++ [samp]) ∧
      samp.colors.length = colors.data.length ∧
      (∀ (p : Nat) (v : ℚ), colors.data[p]? = some v →
        samp.colors[p]? = some (colorValue v, colorValue v, colorValue v)) ∧
      samp.indices.length = 3 * polydata.polys.length ∧
      ∀ (k : Nat) (i : Int) (v : ℚ),
        (flatIndices polydata)[k]? = some i → colors.data[i.toNat]? = some v →
        samp.indices[k]? = some i.toNat ∧
          samp.colors[i.toNat]? = some (colorValue v, colorValue v, colorValue v) := by
  obtain ⟨normals, hnormals, hw3, hrange⟩ := NormalsOk_elim polydata hnorm
  obtain ⟨ts, -, hrun⟩ := process_polydata_of_geometry polydata visible vtpabc normals htri
    hnormals hw3 hrange
  rw [hsel] at hrun
  simp only [hwidth, ne_eq, not_true_eq_false, if_false] at hrun
  have hcols : ∀ (p : Nat) (v : ℚ), colors.data[p]? = some v →
      (asV3 (colsLoop colors.data []))[p]? =
        some (colorValue v, colorValue v, colorValue v) := by
    intro p v hv
    rw [colsLoop_eq, List.nil_append, asV3_flat3, List.getElem?_map, hv]
    rfl
  refine ⟨_, { colors := asV3 (colsLoop colors.data []),
               indices := (flatIndices polydata).map toUInt32 }, hrun, ?_, ?_, hcols, ?_, ?_⟩
  · rw [addColorSample_colorset]
    rfl
  · show (asV3 (colsLoop colors.data [])).length = _
    rw [colsLoop_eq, List.nil_append, asV3_flat3, List.length_map]
  · show ((flatIndices polydata).map toUInt32).length = _
    unfold flatIndices
    rw [List.length_map, List.length_map, flatten_length_of_triangles _ htri]
  · intro k i v hk hv
    refine ⟨?_, hcols _ v hv⟩
    show ((flatIndices polydata).map toUInt32)[k]? = _
    rw [List.getElem?_map, hk, Option.map_some']
    have hmem : i ∈ flatIndices polydata := List.getElem?_mem hk
    have h0 := (hrange i hmem).1
    unfold flatIndices at hmem
    obtain ⟨x, -, rfl⟩ := List.mem_map.mp hmem
    rw [toUInt32_of_nonneg_int32 x h0]

/-- Claim C8, amended, on the square mesh: corner 5 references point 3, whose scalar is 0. -/
theorem C8_colors_indexed_witness :
    ∃ (vtpabc1 : VtpAbc) (samp : ColorSample),
      process_polydata squareMesh true (VtpAbc.new "A") = Outcome.done vtpabc1 ∧
      vtpabc1._colorset = some ((VtpAbc.new "A")._colorset.getD [] ++ [samp]) ∧
      samp.colors.length = 4 ∧ samp.indices.length = 6 ∧
      samp.indices[5]? = some 3 ∧
      samp.colors[3]? = some (colorValue 0, colorValue 0, colorValue 0) := by
  obtain ⟨vtpabc1, samp, hrun, hset, hlen, -, hidx, hcorner⟩ :=
    C8_colors_indexed_by_corner squareMesh true (VtpAbc.new "A") squareBnn
      (by decide) (by decide) rfl rfl
  exact ⟨vtpabc1, samp, hrun, hset, hlen, hidx, hcorner 5 3 0 rfl rfl⟩

/-! ## Containers -/

theorem mapFind_mapSet {α : Type} (m : List (String × α)) (k k' : String) (v : α) :
    mapFind (mapSet m k v) k' = if k = k' then some v else mapFind m k' := by
  induction m with
  | nil => simp [mapSet, mapFind]
  | cons p m ih =>
    obtain ⟨k0, v0⟩ := p
    by_cases h0 : k0 = k
    · subst h0
      simp only [mapSet, if_true, mapFind]
      split <;> rfl
    · simp only [mapSet, if_neg h0, mapFind, ih]
      by_cases h1 : k0 = k'
      · subst h1
        have : ¬ k = k0 := fun h => h0 h.symm
        simp [this]
      · simp [h1]

theorem mapIndex_fst {α : Type} (m : List (String × α)) (k : String) (dflt : α) :
    (mapIndex m k dflt).1 = (mapFind m k).getD dflt := by
  unfold mapIndex
  cases mapFind m k <;> rfl

theorem mapFind_mapIndex {α : Type} (m : List (String × α)) (k k' : String) (dflt : α) :
    mapFind (mapIndex m k dflt).2 k' =
      if k = k' then some ((mapFind m k).getD dflt) else mapFind m k' := by
  unfold mapIndex
  cases h : mapFind m k with
  | none =>
    simp only [mapFind_mapSet, Option.getD_none]
  | some v =>
    by_cases hk : k = k'
    · subst hk
      simp [h]
    · simp [hk]

/-! ## One turn of the loop of `process_pvd` -/

theorem process_polydata_cases (polydata : vtkPolyData) (visible : Bool) (vtpabc : VtpAbc) :
    (∃ e, process_polydata polydata visible vtpabc = Outcome.abort e vtpabc) ∨
    ((process_polydata polydata visible vtpabc).state._visible =
        vtpabc._visible ++ [if visible = true then -1 else 0] ∧
      (process_polydata polydata visible vtpabc).state.mesh.length =
        vtpabc.mesh.length + 1) := by
  unfold process_polydata
  split
  · exact Or.inl ⟨_, rfl⟩
  · split
    · exact Or.inl ⟨_, rfl⟩
    · split
      · exact Or.inl ⟨_, rfl⟩
      · right
        split
        · simp [Outcome.state, addMeshSample_mesh, addMeshSample_visible]
        · split
          · simp [Outcome.state, addMeshSample_mesh, addMeshSample_visible]
          · simp [Outcome.state, addMeshSample_mesh, addMeshSample_visible,
              addColorSample_visible, addColorSample_mesh]

theorem process_vtm_cases (reader : String → Option vtkPolyData) (filename : String)
    (visible : Bool) (vtpabc : VtpAbc) :
    (∃ e, process_vtm reader filename visible vtpabc = Outcome.abort e vtpabc) ∨
    ((process_vtm reader filename visible vtpabc).state._visible =
        vtpabc._visible ++ [if visible = true then -1 else 0] ∧
      (process_vtm reader filename visible vtpabc).state.mesh.length =
        vtpabc.mesh.length + 1) := by
  unfold process_vtm
  split
  · exact Or.inl ⟨_, rfl⟩
  · exact process_polydata_cases _ _ _

theorem process_polydata_valid (polydata : vtkPolyData) (visible : Bool) (vtpabc : VtpAbc)
    (h : ValidMesh polydata) :
    (process_polydata polydata visible vtpabc).isDone = true := by
  obtain ⟨htri, hnorm, hcol⟩ := h
  obtain ⟨normals, hnormals, hw3, hrange⟩ := NormalsOk_elim polydata hnorm
  obtain ⟨ts, -, hrun⟩ := process_polydata_of_geometry polydata visible vtpabc normals htri
    hnormals hw3 hrange
  rw [hrun]
  unfold ColorsOk at hcol
  split
  · rfl
  · next colors heq =>
    rw [heq] at hcol
    simp only [hcol, ne_eq, not_true_eq_false, if_false]
    rfl

theorem process_vtm_valid (reader : String → Option vtkPolyData) (filename : String)
    (visible : Bool) (vtpabc : VtpAbc) (polydata : vtkPolyData)
    (hread : reader filename = some polydata) (h : ValidMesh polydata) :
    (process_vtm reader filename visible vtpabc).isDone = true := by
  unfold process_vtm
  rw [hread]
  exact process_polydata_valid polydata visible vtpabc h

theorem body_eq (reader : String → Option vtkPolyData) (st : PvdState) (d : DataSet) :
    process_pvd_body reader st d =
      match process_vtm reader d.file (d.file != st.lastFile d.group) (st.track d.group) with
      | .abort e v =>
        .abort e
          { st with
            timestamps := setInsert st.timestamps d.timestep
            vtpabcs := mapSet st.vtpabcs d.group v
            last_file := (mapIndex st.last_file d.group "").2 }
      | .done v =>
        .done
          { st with
            timestamps := setInsert st.timestamps d.timestep
            vtpabcs := mapSet st.vtpabcs d.group v
            last_file := mapSet (mapIndex st.last_file d.group "").2 d.group d.file } := by
  unfold process_pvd_body
  simp only [mapIndex_fst]
  have htrack : (match mapFind st.vtpabcs d.group with
      | some v => v
      | none => VtpAbc.new d.group) = st.track d.group := by
    unfold PvdState.track
    cases mapFind st.vtpabcs d.group <;> rfl
  rw [htrack]
  rfl

theorem body_track (reader : String → Option vtkPolyData) (st : PvdState) (d : DataSet)
    (g : String) :
    (process_pvd_body reader st d).state.track g =
      if d.group = g then
        (process_vtm reader d.file (d.file != st.lastFile d.group) (st.track d.group)).state
      else st.track g := by
  rw [body_eq]
  cases process_vtm reader d.file (d.file != st.lastFile d.group) (st.track d.group) with
  | done v =>
    simp only [Outcome.state, PvdState.track, mapFind_mapSet]
    split <;> rfl
  | abort e v =>
    simp only [Outcome.state, PvdState.track, mapFind_mapSet]
    split <;> rfl

theorem body_isDone (reader : String → Option vtkPolyData) (st : PvdState) (d : DataSet) :
    (process_pvd_body reader st d).isDone =
      (process_vtm reader d.file (d.file != st.lastFile d.group) (st.track d.group)).isDone := by
  rw [body_eq]
  cases process_vtm reader d.file (d.file != st.lastFile d.group) (st.track d.group) <;> rfl

theorem body_lastFile (reader : String → Option vtkPolyData) (st st1 : PvdState) (d : DataSet)
    (g : String) (h : process_pvd_body reader st d = Outcome.done st1) :
    st1.lastFile g = if d.group = g then d.file else st.lastFile g := by
  rw [body_eq] at h
  cases hv : process_vtm reader d.file (d.file != st.lastFile d.group) (st.track d.group) with
  | abort e v =>
    rw [hv] at h
    cases h
  | done v =>
    rw [hv] at h
    injection h with h
    subst h
    simp only [PvdState.lastFile, mapFind_mapSet, mapFind_mapIndex]
    split <;> simp_all

theorem body_timestamps (reader : String → Option vtkPolyData) (st : PvdState) (d : DataSet) :
    (process_pvd_body reader st d).state.timestamps = setInsert st.timestamps d.timestep ∧
    (process_pvd_body reader st d).state.archive = st.archive := by
  rw [body_eq]
  cases process_vtm reader d.file (d.file != st.lastFile d.group) (st.track d.group) <;>
    exact ⟨rfl, rfl⟩

theorem body_step_other (reader : String → Option vtkPolyData) (st : PvdState) (d : DataSet)
    (g : String) (hg : d.group ≠ g) :
    (process_pvd_body reader st d).state.track g = st.track g := by
  rw [body_track, if_neg hg]

theorem body_step_same (reader : String → Option vtkPolyData) (st : PvdState) (d : DataSet) :
    ((process_pvd_body reader st d).state.track d.group = st.track d.group ∧
      (process_pvd_body reader st d).isDone = false) ∨
    (((process_pvd_body reader st d).state.track d.group)._visible =
        (st.track d.group)._visible ++
          [if (d.file != st.lastFile d.group) = true then -1 else 0] ∧
      ((process_pvd_body reader st d).state.track d.group).mesh.length =
        (st.track d.group).mesh.length + 1) := by
  rw [body_track, if_pos rfl, body_isDone]
  rcases process_vtm_cases reader d.file (d.file != st.lastFile d.group) (st.track d.group)
    with ⟨e, he⟩ | h
  · left
    rw [he]
    exact ⟨rfl, rfl⟩
  · exact Or.inr h

theorem recordsOf_cons_same (d : DataSet) (ds : List DataSet) :
    recordsOf (d :: ds) d.group = d :: recordsOf ds d.group := by
  simp [recordsOf]

theorem recordsOf_cons_other (d : DataSet) (ds : List DataSet) (g : String)
    (hg : d.group ≠ g) : recordsOf (d :: ds) g = recordsOf ds g := by
  simp [recordsOf, hg]

/-! ## The loop of `process_pvd` -/

theorem loop_cons_done (reader : String → Option vtkPolyData) (d : DataSet)
    (ds : List DataSet) (st : PvdState)
    (h : (process_pvd_body reader st d).isDone = true) :
    process_pvd_loop reader (d :: ds) st =
      process_pvd_loop reader ds (process_pvd_body reader st d).state := by
  rw [process_pvd_loop]
  cases hb : process_pvd_body reader st d with
  | done st1 => rfl
  | abort e st1 => rw [hb] at h; cases h

theorem loop_cons_abort (reader : String → Option vtkPolyData) (d : DataSet)
    (ds : List DataSet) (st : PvdState)
    (h : (process_pvd_body reader st d).isDone = false) :
    (process_pvd_loop reader (d :: ds) st).state = (process_pvd_body reader st d).state ∧
    (process_pvd_loop reader (d :: ds) st).isDone = false := by
  rw [process_pvd_loop]
  cases hb : process_pvd_body reader st d with
  | done st1 => rw [hb] at h; cases h
  | abort e st1 => exact ⟨rfl, rfl⟩

theorem body_lastFile_state (reader : String → Option vtkPolyData) (st : PvdState)
    (d : DataSet) (g : String) (h : (process_pvd_body reader st d).isDone = true) :
    (process_pvd_body reader st d).state.lastFile g =
      if d.group = g then d.file else st.lastFile g := by
  cases hb : process_pvd_body reader st d with
  | done st1 => exact body_lastFile reader st st1 d g hb
  | abort e st1 => rw [hb] at h; cases h

/-- The visibility samples of the object of `g` after the loop: those it had, followed by
the codes of the records of `g` that were reached, each computed against the file of the
record of `g` before it. -/
theorem loop_visible (reader : String → Option vtkPolyData) (ds : List DataSet)
    (st : PvdState) (g : String) :
    (∃ k, ((process_pvd_loop reader ds st).state.track g)._visible =
      (st.track g)._visible ++
        (visCodes (st.lastFile g) ((recordsOf ds g).map (fun d => d.file))).take k) ∧
    ((process_pvd_loop reader ds st).isDone = true →
      ((process_pvd_loop reader ds st).state.track g)._visible =
        (st.track g)._visible ++
          visCodes (st.lastFile g) ((recordsOf ds g).map (fun d => d.file))) := by
  induction ds generalizing st with
  | nil =>
    refine ⟨⟨0, ?_⟩, fun _ => ?_⟩ <;> simp [process_pvd_loop, Outcome.state, recordsOf, visCodes]
  | cons d ds ih =>
    by_cases hdone : (process_pvd_body reader st d).isDone = true
    · rw [loop_cons_done reader d ds st hdone]
      obtain ⟨⟨k, hk⟩, hfull⟩ := ih (process_pvd_body reader st d).state
      by_cases hg : d.group = g
      · subst hg
        have hlast := body_lastFile_state reader st d d.group hdone
        rw [if_pos rfl] at hlast
        have hvis : ((process_pvd_body reader st d).state.track d.group)._visible =
            (st.track d.group)._visible ++
              [if (d.file != st.lastFile d.group) = true then -1 else 0] := by
          rcases body_step_same reader st d with ⟨-, hnot⟩ | ⟨hv, -⟩
          · rw [hdone] at hnot; cases hnot
          · exact hv
        rw [hlast, hvis] at hk hfull
        rw [recordsOf_cons_same, List.map_cons, visCodes]
        refine ⟨⟨k + 1, ?_⟩, fun h => ?_⟩
        · rw [hk, List.take_succ_cons, List.append_assoc, List.singleton_append]
        · rw [hfull h, List.append_assoc, List.singleton_append]
      · have hlast := body_lastFile_state reader st d g hdone
        rw [if_neg hg] at hlast
        rw [hlast, body_step_other reader st d g hg] at hk hfull
        rw [recordsOf_cons_other d ds g hg]
        exact ⟨⟨k, hk⟩, hfull⟩
    · have hfalse : (process_pvd_body reader st d).isDone = false := by
        cases h : (process_pvd_body reader st d).isDone
        · rfl
        · exact absurd h hdone
      obtain ⟨hstate, hnot⟩ := loop_cons_abort reader d ds st hfalse
      rw [hstate, hnot]
      refine ⟨?_, fun h => by cases h⟩
      by_cases hg : d.group = g
      · subst hg
        rw [recordsOf_cons_same, List.map_cons, visCodes]
        rcases body_step_same reader st d with ⟨hsame, -⟩ | ⟨hv, -⟩
        · exact ⟨0, by rw [hsame, List.take_zero, List.append_nil]⟩
        · exact ⟨1, by rw [hv, List.take_succ_cons, List.take_zero]⟩
      · exact ⟨0, by rw [body_step_other reader st d g hg, List.take_zero, List.append_nil]⟩

/-- The mesh schema and the visibility property of an object receive their samples
together. -/
theorem loop_mesh_visible (reader : String → Option vtkPolyData) (ds : List DataSet)
    (st : PvdState) (g : String) :
    ((process_pvd_loop reader ds st).state.track g).mesh.length +
        (st.track g)._visible.length =
      ((process_pvd_loop reader ds st).state.track g)._visible.length +
        (st.track g).mesh.length := by
  induction ds generalizing st with
  | nil => simp [process_pvd_loop, Outcome.state]; omega
  | cons d ds ih =>
    have hstep : ((process_pvd_body reader st d).state.track g).mesh.length +
        (st.track g)._visible.length =
      ((process_pvd_body reader st d).state.track g)._visible.length +
        (st.track g).mesh.length := by
      by_cases hg : d.group = g
      · subst hg
        rcases body_step_same reader st d with ⟨hsame, -⟩ | ⟨hv, hm⟩
        · rw [hsame]; omega
        · rw [hv, hm, List.length_append, List.length_singleton]; omega
      · rw [body_step_other reader st d g hg]; omega
    by_cases hdone : (process_pvd_body reader st d).isDone = true
    · rw [loop_cons_done reader d ds st hdone]
      have := ih (process_pvd_body reader st d).state
      omega
    · have hfalse : (process_pvd_body reader st d).isDone = false := by
        cases h : (process_pvd_body reader st d).isDone
        · rfl
        · exact absurd h hdone
      rw [(loop_cons_abort reader d ds st hfalse).1]
      exact hstep

theorem ValidManifest_elim (reader : String → Option vtkPolyData) (ds : List DataSet)
    (h : ValidManifest reader ds) (d : DataSet) (hd : d ∈ ds) :
    ∃ polydata, reader d.file = some polydata ∧ ValidMesh polydata := by
  have hd' := h d hd
  unfold ValidFile at hd'
  cases hr : reader d.file with
  | none => rw [hr] at hd'; exact absurd hd' id
  | some polydata => rw [hr] at hd'; exact ⟨polydata, rfl, hd'⟩

theorem loop_valid (reader : String → Option vtkPolyData) (ds : List DataSet)
    (st : PvdState) (h : ValidManifest reader ds) :
    (process_pvd_loop reader ds st).isDone = true := by
  induction ds generalizing st with
  | nil => rfl
  | cons d ds ih =>
    obtain ⟨polydata, hread, hvalid⟩ := ValidManifest_elim reader _ h d (List.mem_cons_self _ _)
    have hdone : (process_pvd_body reader st d).isDone = true := by
      rw [body_isDone]
      exact process_vtm_valid reader d.file _ _ polydata hread hvalid
    rw [loop_cons_done reader d ds st hdone]
    exact ih _ (fun d' hd' => h d' (List.mem_cons_of_mem _ hd'))

theorem visCodes_length (last : String) (files : List String) :
    (visCodes last files).length = files.length := by
  induction files generalizing last with
  | nil => rfl
  | cons f files ih => simp [visCodes, ih]

theorem loop_archive (reader : String → Option vtkPolyData) (ds : List DataSet)
    (st : PvdState) : (process_pvd_loop reader ds st).state.archive = st.archive := by
  induction ds generalizing st with
  | nil => rfl
  | cons d ds ih =>
    rw [process_pvd_loop]
    have hb := (body_timestamps reader st d).2
    cases hbody : process_pvd_body reader st d with
    | done st1 =>
      rw [hbody] at hb
      simp only [ih st1]
      exact hb
    | abort e st1 =>
      rw [hbody] at hb
      exact hb

theorem setInsert_nodup (s : List String) (x : String) (h : s.Nodup) :
    (setInsert s x).Nodup := by
  unfold setInsert
  split
  · exact h
  · next hx =>
    rw [List.nodup_append]
    refine ⟨h, List.nodup_singleton x, ?_⟩
    intro a ha hb
    rw [List.mem_singleton] at hb
    subst hb
    exact hx ha

theorem setInsert_toFinset (s : List String) (x : String) :
    (setInsert s x).toFinset = insert x s.toFinset := by
  unfold setInsert
  split
  · next hx =>
    rw [Finset.insert_eq_of_mem (List.mem_toFinset.mpr hx)]
  · ext a
    simp [or_comm]

/-- The timestamps gathered by a loop that ran to its end: a duplicate-free list of the
timesteps held before and of those of the records. -/
theorem loop_timestamps (reader : String → Option vtkPolyData) (ds : List DataSet)
    (st : PvdState) (hnodup : st.timestamps.Nodup)
    (hdone : (process_pvd_loop reader ds st).isDone = true) :
    (process_pvd_loop reader ds st).state.timestamps.Nodup ∧
    (process_pvd_loop reader ds st).state.timestamps.toFinset =
      st.timestamps.toFinset ∪ timestepsOf ds := by
  induction ds generalizing st with
  | nil =>
    refine ⟨hnodup, ?_⟩
    simp [process_pvd_loop, Outcome.state, timestepsOf]
  | cons d ds ih =>
    by_cases hb : (process_pvd_body reader st d).isDone = true
    · rw [loop_cons_done reader d ds st hb] at hdone ⊢
      have hts := (body_timestamps reader st d).1
      obtain ⟨h1, h2⟩ := ih (process_pvd_body reader st d).state
        (by rw [hts]; exact setInsert_nodup _ _ hnodup) hdone
      refine ⟨h1, ?_⟩
      rw [h2, hts, setInsert_toFinset]
      ext a
      simp [timestepsOf]
    · have hfalse : (process_pvd_body reader st d).isDone = false := by
        cases h : (process_pvd_body reader st d).isDone
        · rfl
        · exact absurd h hb
      rw [(loop_cons_abort reader d ds st hfalse).2] at hdone
      cases hdone

/-! ## `process_pvd` as a whole -/

theorem process_pvd_isDone (reader : String → Option vtkPolyData) (ds : List DataSet)
    (archive : OArchive) :
    (process_pvd reader (PvdFile.collection ds) archive).isDone =
      (process_pvd_loop reader ds
        (PvdState.init (archive.addTimeSampling frameSampling).2)).isDone := by
  unfold process_pvd
  simp only
  cases process_pvd_loop reader ds (PvdState.init (archive.addTimeSampling frameSampling).2) <;>
    rfl

theorem process_pvd_track (reader : String → Option vtkPolyData) (ds : List DataSet)
    (archive : OArchive) (g : String) :
    (process_pvd reader (PvdFile.collection ds) archive).state.track g =
      (process_pvd_loop reader ds
        (PvdState.init (archive.addTimeSampling frameSampling).2)).state.track g := by
  unfold process_pvd
  simp only
  cases process_pvd_loop reader ds (PvdState.init (archive.addTimeSampling frameSampling).2) <;>
    rfl

theorem addTimeSampling_properties (archive : OArchive) (ts : TimeSampling) :
    (archive.addTimeSampling ts).2.properties = archive.properties := by
  unfold OArchive.addTimeSampling
  split <;> rfl

theorem timestepsOf_card_le (ds : List DataSet) : (timestepsOf ds).card ≤ ds.length := by
  unfold timestepsOf
  calc (ds.map (fun d => d.timestep)).toFinset.card
      ≤ (ds.map (fun d => d.timestep)).length := List.toFinset_card_le _
    _ = ds.length := List.length_map _ _

/-- The properties of the archive after `process_pvd`: when the run reaches its end, the
properties it had followed by the single sample-count property, whose value is the number
of distinct timesteps; when the run stops early, the properties it had. -/
theorem process_pvd_properties (reader : String → Option vtkPolyData) (ds : List DataSet)
    (archive : OArchive) (hlen : ds.length < 2 ^ 31) :
    ((process_pvd reader (PvdFile.collection ds) archive).isDone = true →
      (process_pvd reader (PvdFile.collection ds) archive).state.archive.properties =
        archive.properties ++
          [(sampsampName (archive.addTimeSampling frameSampling).1, (timestepsOf ds).card)]) ∧
    ((process_pvd reader (PvdFile.collection ds) archive).isDone = false →
      (process_pvd reader (PvdFile.collection ds) archive).state.archive.properties =
        archive.properties) := by
  have harch := loop_archive reader ds (PvdState.init (archive.addTimeSampling frameSampling).2)
  have hts := loop_timestamps reader ds
    (PvdState.init (archive.addTimeSampling frameSampling).2) List.nodup_nil
  unfold process_pvd
  simp only
  cases hloop : process_pvd_loop reader ds
      (PvdState.init (archive.addTimeSampling frameSampling).2) with
  | abort e st =>
    rw [hloop] at harch
    refine ⟨fun h => (by cases h), fun _ => ?_⟩
    simp only [Outcome.state] at harch ⊢
    rw [harch]
    exact addTimeSampling_properties archive frameSampling
  | done st =>
    rw [hloop] at harch hts
    refine ⟨fun _ => ?_, fun h => by cases h⟩
    obtain ⟨hnodup, hset⟩ := hts rfl
    simp only [Outcome.state] at harch hnodup hset ⊢
    have hcard : st.timestamps.length = (timestepsOf ds).card := by
      rw [← List.toFinset_card_of_nodup hnodup, hset]
      simp [PvdState.init]
    have hle := timestepsOf_card_le ds
    rw [harch, hcard, Nat.mod_eq_of_lt (by omega)]
    simp only [PvdState.init, addTimeSampling_properties]

theorem Outcome.eq_done_of_isDone {σ : Type} (out : Outcome σ) (h : out.isDone = true) :
    out = Outcome.done out.state := by
  cases out with
  | done s => rfl
  | abort e s => cases h

theorem init_last_file (archive : OArchive) :
    (PvdState.init archive).last_file =
      [("source9218", "Kip3B/Kip3B_source9218T0000.vtm"),
       ("source10267", "Kip3B/Kip3B_source10267T0000.vtm")] := by
  have h : mapSet (mapSet ([] : List (String × String)) "source9218"
      "Kip3B/Kip3B_source9218T0000.vtm") "source10267" "Kip3B/Kip3B_source10267T0000.vtm" =
      [("source9218", "Kip3B/Kip3B_source9218T0000.vtm"),
       ("source10267", "Kip3B/Kip3B_source10267T0000.vtm")] := by decide
  exact h

theorem init_lastFile (archive : OArchive) (g : String) :
    (PvdState.init archive).lastFile g =
      if "source9218" = g then "Kip3B/Kip3B_source9218T0000.vtm"
      else if "source10267" = g then "Kip3B/Kip3B_source10267T0000.vtm"
      else "" := by
  unfold PvdState.lastFile
  rw [init_last_file]
  simp only [mapFind]
  split
  · rfl
  · split <;> rfl

theorem process_pvd_valid (reader : String → Option vtkPolyData) (ds : List DataSet)
    (archive : OArchive) (h : ValidManifest reader ds) :
    (process_pvd reader (PvdFile.collection ds) archive).isDone = true := by
  rw [process_pvd_isDone]
  exact loop_valid reader ds _ h

/-- The visibility samples of the object of `g` after `process_pvd`: the codes of the records
of `g` that were reached, all of them when the run reached its end. -/
theorem process_pvd_visible (reader : String → Option vtkPolyData) (ds : List DataSet)
    (archive : OArchive) (g : String) :
    (∃ k, ((process_pvd reader (PvdFile.collection ds) archive).state.track g)._visible =
      (visCodes ((PvdState.init (archive.addTimeSampling frameSampling).2).lastFile g)
        ((recordsOf ds g).map (fun d => d.file))).take k) ∧
    ((process_pvd reader (PvdFile.collection ds) archive).isDone = true →
      ((process_pvd reader (PvdFile.collection ds) archive).state.track g)._visible =
        visCodes ((PvdState.init (archive.addTimeSampling frameSampling).2).lastFile g)
          ((recordsOf ds g).map (fun d => d.file))) := by
  have h := loop_visible reader ds (PvdState.init (archive.addTimeSampling frameSampling).2) g
  rw [process_pvd_track, process_pvd_isDone]
  have hinit : ((PvdState.init (archive.addTimeSampling frameSampling).2).track g)._visible =
      [] := rfl
  rw [hinit] at h
  simpa using h

theorem process_pvd_mesh_visible (reader : String → Option vtkPolyData) (ds : List DataSet)
    (archive : OArchive) (g : String) :
    ((process_pvd reader (PvdFile.collection ds) archive).state.track g).mesh.length =
      ((process_pvd reader (PvdFile.collection ds) archive).state.track g)._visible.length := by
  have h := loop_mesh_visible reader ds
    (PvdState.init (archive.addTimeSampling frameSampling).2) g
  rw [process_pvd_track]
  have h1 : ((PvdState.init (archive.addTimeSampling frameSampling).2).track g)._visible =
      [] := rfl
  have h2 : ((PvdState.init (archive.addTimeSampling frameSampling).2).track g).mesh =
      [] := rfl
  rw [h1, h2] at h
  simpa using h

theorem process_pvd_mesh_count (reader : String → Option vtkPolyData) (ds : List DataSet)
    (archive : OArchive) (g : String)
    (hdone : (process_pvd reader (PvdFile.collection ds) archive).isDone = true) :
    ((process_pvd reader (PvdFile.collection ds) archive).state.track g).mesh.length =
      (recordsOf ds g).length := by
  rw [process_pvd_mesh_visible, (process_pvd_visible reader ds archive g).2 hdone,
    visCodes_length, List.length_map]

theorem visCodes_zero (last : String) (files : List String) (c : Int)
    (h : (visCodes last files)[0]? = some c) :
    ∃ f, files[0]? = some f ∧ c = if (f != last) = true then -1 else 0 := by
  cases files with
  | nil => simp [visCodes] at h
  | cons f files =>
    simp only [visCodes, List.getElem?_cons_zero, Option.some.injEq] at h
    exact ⟨f, by simp, h.symm⟩

theorem visCodes_succ (last : String) (files : List String) (j : Nat) (c : Int)
    (h : (visCodes last files)[j + 1]? = some c) :
    ∃ p f, files[j]? = some p ∧ files[j + 1]? = some f ∧
      c = if (f != p) = true then -1 else 0 := by
  induction files generalizing last j with
  | nil => simp [visCodes] at h
  | cons f0 files ih =>
    simp only [visCodes, List.getElem?_cons_succ] at h
    cases j with
    | zero =>
      obtain ⟨f, hf, hc⟩ := visCodes_zero f0 files c h
      exact ⟨f0, f, by simp, by simpa using hf, hc⟩
    | succ j =>
      obtain ⟨p, f, hp, hf, hc⟩ := ih f0 j h
      exact ⟨p, f, by simpa using hp, by simpa using hf, hc⟩

theorem getElem?_of_take {α : Type} (l : List α) (k j : Nat) (c : α)
    (h : (l.take k)[j]? = some c) : l[j]? = some c := by
  rw [List.getElem?_take] at h
  split at h
  · exact h
  · cases h

theorem visCode_eq_zero_iff (f p : String) :
    ((if (f != p) = true then (-1 : Int) else 0) = 0 ↔ f = p) ∧
    ((if (f != p) = true then (-1 : Int) else 0) = -1 ↔ f ≠ p) := by
  by_cases h : f = p
  · subst h
    simp
  · simp [h]

/-! ## The claims on `process_pvd` -/

/-- Claim C1. For a manifest all of whose files decode to meshes that pass the checks of
`process_polydata`, `process_pvd` runs to its end, and the number of mesh samples committed
to the object of every group `g` is the number of records of group `g`. -/
theorem C1_mesh_samples_equal_records (reader : String → Option vtkPolyData)
    (datasets : List DataSet) (archive : OArchive) (hvalid : ValidManifest reader datasets) :
    ∃ st, process_pvd reader (PvdFile.collection datasets) archive = Outcome.done st ∧
      ∀ g, (st.track g).mesh.length = (recordsOf datasets g).length := by
  have hdone := process_pvd_valid reader datasets archive hvalid
  refine ⟨_, Outcome.eq_done_of_isDone _ hdone, fun g => ?_⟩
  exact process_pvd_mesh_count reader datasets archive g hdone

/-- Claim C1 on two records of group `A` at timesteps `0` and `1`: the object `A` has exactly
2 mesh samples. -/
theorem C1_mesh_samples_witness :
    ValidManifest sampleReader manifestA ∧
    ∃ st, process_pvd sampleReader (PvdFile.collection manifestA) emptyArchive =
        Outcome.done st ∧
      (st.track "A").mesh.length = 2 := by
  refine ⟨by decide, ?_⟩
  obtain ⟨st, hrun, hcount⟩ :=
    C1_mesh_samples_equal_records sampleReader manifestA emptyArchive (by decide)
  exact ⟨st, hrun, hcount "A"⟩

/-- Claim C2. Whatever the manifest and the files, the visibility sample committed for a
record of group `g` that is not the first of its group is `0` (not visible) exactly when its
file string equals the file string of the record of `g` just before it, records of other
groups in between playing no role, and is `-1` (visible) otherwise; for a valid manifest
every record has its visibility sample. -/
theorem C2_visible_iff_file_changed (reader : String → Option vtkPolyData)
    (datasets : List DataSet) (archive : OArchive) (g : String) :
    (∀ (j : Nat) (prev cur : DataSet) (code : Int),
      (recordsOf datasets g)[j]? = some prev →
      (recordsOf datasets g)[j + 1]? = some cur →
      ((process_pvd reader (PvdFile.collection datasets) archive).state.track g)._visible[j + 1]?
        = some code →
      (code = 0 ↔ cur.file = prev.file) ∧ (code = -1 ↔ cur.file ≠ prev.file)) ∧
    (ValidManifest reader datasets →
      ((process_pvd reader (PvdFile.collection datasets) archive).state.track g)._visible.length
        = (recordsOf datasets g).length) := by
  constructor
  · intro j prev cur code hprev hcur hcode
    obtain ⟨k, hk⟩ := (process_pvd_visible reader datasets archive g).1
    rw [hk] at hcode
    obtain ⟨p, f, hp, hf, hc⟩ := visCodes_succ _ _ j code (getElem?_of_take _ k _ code hcode)
    rw [List.getElem?_map, hprev] at hp
    rw [List.getElem?_map, hcur] at hf
    simp only [Option.map_some', Option.some.injEq] at hp hf
    subst hp hf hc
    exact visCode_eq_zero_iff cur.file prev.file
  · intro hvalid
    rw [← process_pvd_mesh_visible]
    exact process_pvd_mesh_count reader datasets archive g
      (process_pvd_valid reader datasets archive hvalid)

/-- Claim C2 on two interleaved groups: the second record of `A` repeats `a.vtm` and is not
visible although a record of `B` naming another file lies between; the third record of `A`
names `b.vtm` and is visible. -/
theorem C2_visible_witness :
    ((process_pvd sampleReader (PvdFile.collection manifestInterleaved)
        emptyArchive).state.track "A")._visible[1]? = some 0 ∧
    ((0 : Int) = 0 ↔
      (DataSet.mk "1" "A" "a.vtm").file = (DataSet.mk "0" "A" "a.vtm").file) ∧
    ((process_pvd sampleReader (PvdFile.collection manifestInterleaved)
        emptyArchive).state.track "A")._visible[2]? = some (-1) ∧
    ((-1 : Int) = -1 ↔
      (DataSet.mk "2" "A" "b.vtm").file ≠ (DataSet.mk "1" "A" "a.vtm").file) :=
  ⟨by decide,
   ((C2_visible_iff_file_changed sampleReader manifestInterleaved emptyArchive "A").1 0
      ⟨"0", "A", "a.vtm"⟩ ⟨"1", "A", "a.vtm"⟩ 0 (by decide) (by decide) (by decide)).1,
   by decide,
   ((C2_visible_iff_file_changed sampleReader manifestInterleaved emptyArchive "A").1 1
      ⟨"1", "A", "a.vtm"⟩ ⟨"2", "A", "b.vtm"⟩ (-1) (by decide) (by decide) (by decide)).2⟩

/-- Claim C3 fails as stated: the first record of the seeded group `source9218` names
`a.vtm`, which is not the seeded file, and it is committed with the code `-1` (visible). -/
theorem C3_seeded_first_record_visible :
    (recordsOf manifestSeeded "source9218")[0]? =
      some { timestep := "0", group := "source9218", file := "a.vtm" } ∧
    ((process_pvd sampleReader (PvdFile.collection manifestSeeded)
        emptyArchive).state.track "source9218")._visible[0]? = some (-1) := by
  decide

/-- Claim C3, amended. The first record of a seeded group is committed not visible (code `0`)
exactly when its file string is the file seeded for that group, and visible (code `-1`) for
any other file; the seed is used for that first record only: every later record of the group
is not visible exactly when its file equals the file of the record of the group before it. -/
theorem C3_seeded_first_record_iff_seed_file (reader : String → Option vtkPolyData)
    (datasets : List DataSet) (archive : OArchive) (g seed : String)
    (hseed : (g = "source9218" ∧ seed = "Kip3B/Kip3B_source9218T0000.vtm") ∨
      (g = "source10267" ∧ seed = "Kip3B/Kip3B_source10267T0000.vtm")) :
    (∀ (first : DataSet) (code : Int),
      (recordsOf datasets g)[0]? = some first →
      ((process_pvd reader (PvdFile.collection datasets) archive).state.track g)._visible[0]?
        = some code →
      (code = 0 ↔ first.file = seed) ∧ (code = -1 ↔ first.file ≠ seed)) ∧
    (∀ (j : Nat) (prev cur : DataSet) (code : Int),
      (recordsOf datasets g)[j]? = some prev →
      (recordsOf datasets g)[j + 1]? = some cur →
      ((process_pvd reader (PvdFile.collection datasets) archive).state.track g)._visible[j + 1]?
        = some code →
      (code = 0 ↔ cur.file = prev.file) ∧ (code = -1 ↔ cur.file ≠ prev.file)) := by
  obtain ⟨k, hk⟩ := (process_pvd_visible reader datasets archive g).1
  have hlast : (PvdState.init (archive.addTimeSampling frameSampling).2).lastFile g = seed := by
    rw [init_lastFile]
    rcases hseed with ⟨rfl, rfl⟩ | ⟨rfl, rfl⟩
    · rfl
    · rfl
  rw [hlast] at hk
  constructor
  · intro first code hfirst hcode
    rw [hk] at hcode
    obtain ⟨f, hf, hc⟩ := visCodes_zero _ _ code (getElem?_of_take _ k _ code hcode)
    rw [List.getElem?_map, hfirst] at hf
    simp only [Option.map_some', Option.some.injEq] at hf
    subst hf hc
    exact visCode_eq_zero_iff first.file seed
  · intro j prev cur code hprev hcur hcode
    rw [hk] at hcode
    obtain ⟨p, f, hp, hf, hc⟩ := visCodes_succ _ _ j code (getElem?_of_take _ k _ code hcode)
    rw [List.getElem?_map, hprev] at hp
    rw [List.getElem?_map, hcur] at hf
    simp only [Option.map_some', Option.some.injEq] at hp hf
    subst hp hf hc
    exact visCode_eq_zero_iff cur.file prev.file

/-- Claim C3, amended, on a manifest whose first record of `source9218` names the seeded
file: that record is not visible, the next one, naming `a.vtm`, is visible. -/
theorem C3_seeded_first_record_witness :
    ((process_pvd seededReader (PvdFile.collection manifestSeedFile)
        emptyArchive).state.track "source9218")._visible = [0, -1] ∧
    ((0 : Int) = 0 ↔
      (DataSet.mk "0" "source9218" "Kip3B/Kip3B_source9218T0000.vtm").file =
        "Kip3B/Kip3B_source9218T0000.vtm") :=
  ⟨by decide,
   ((C3_seeded_first_record_iff_seed_file seededReader manifestSeedFile emptyArchive
      "source9218" "Kip3B/Kip3B_source9218T0000.vtm" (Or.inl ⟨rfl, rfl⟩)).1
      ⟨"0", "source9218", "Kip3B/Kip3B_source9218T0000.vtm"⟩ 0 (by decide) (by decide)).1⟩

/-- Claim C4 fails as stated: in a valid manifest where group `A` has two records at timestep
`0` and group `B` one record at timestep `1`, the object `A` has 2 mesh samples and the
sample-count property is 2, yet `A` has no record at timestep `1`. -/
theorem C4_equal_count_without_every_timestep :
    ValidManifest sampleReader manifestRepeated ∧
    ((process_pvd sampleReader (PvdFile.collection manifestRepeated)
        emptyArchive).state.track "A").mesh.length = 2 ∧
    (process_pvd sampleReader (PvdFile.collection manifestRepeated)
        emptyArchive).state.archive.properties = [("1.samples", 2)] ∧
    "1" ∈ timestepsOf manifestRepeated ∧
    ¬ ∃ d ∈ manifestRepeated, d.group = "A" ∧ d.timestep = "1" := by
  refine ⟨by decide, by decide, by decide!, by decide, by decide⟩

/-- Claim C4, amended. For a valid manifest and a group `g` no two records of which share a
timestep, the number of mesh samples committed to the object of `g` equals the value written
to the sample-count property, the number of distinct timesteps, if and only if `g` has a
record in every timestep of the manifest. -/
theorem C4_count_equals_timesteps_iff (reader : String → Option vtkPolyData)
    (datasets : List DataSet) (archive : OArchive) (g : String)
    (hvalid : ValidManifest reader datasets) (hlen : datasets.length < 2 ^ 31)
    (hdistinct : ((recordsOf datasets g).map (fun d => d.timestep)).Nodup) :
    ∃ st, process_pvd reader (PvdFile.collection datasets) archive = Outcome.done st ∧
      st.archive.properties = archive.properties ++
        [(sampsampName (archive.addTimeSampling frameSampling).1,
          (timestepsOf datasets).card)] ∧
      ((st.track g).mesh.length = (timestepsOf datasets).card ↔
        ∀ t ∈ timestepsOf datasets, ∃ d ∈ datasets, d.group = g ∧ d.timestep = t) := by
  have hdone := process_pvd_valid reader datasets archive hvalid
  refine ⟨_, Outcome.eq_done_of_isDone _ hdone,
    (process_pvd_properties reader datasets archive hlen).1 hdone, ?_⟩
  rw [process_pvd_mesh_count reader datasets archive g hdone]
  have hcard : (recordsOf datasets g).length = (timestepsOf (recordsOf datasets g)).card := by
    unfold timestepsOf
    rw [List.toFinset_card_of_nodup hdistinct, List.length_map]
  have hsub : timestepsOf (recordsOf datasets g) ⊆ timestepsOf datasets := by
    intro t ht
    simp only [timestepsOf, recordsOf, List.mem_toFinset, List.mem_map, List.mem_filter] at ht ⊢
    obtain ⟨d, ⟨hd, -⟩, rfl⟩ := ht
    exact ⟨d, hd, rfl⟩
  have hmem : ∀ t, t ∈ timestepsOf (recordsOf datasets g) ↔
      ∃ d ∈ datasets, d.group = g ∧ d.timestep = t := by
    intro t
    simp only [timestepsOf, recordsOf, List.mem_toFinset, List.mem_map, List.mem_filter,
      decide_eq_true_eq]
    constructor
    · rintro ⟨d, ⟨hd, hg⟩, rfl⟩
      exact ⟨d, hd, hg, rfl⟩
    · rintro ⟨d, hd, hg, rfl⟩
      exact ⟨d, ⟨hd, hg⟩, rfl⟩
  rw [hcard]
  constructor
  · intro heq t ht
    have hset := Finset.eq_of_subset_of_card_le hsub (le_of_eq heq.symm)
    rw [← hset] at ht
    exact (hmem t).mp ht
  · intro hall
    have hset : timestepsOf (recordsOf datasets g) = timestepsOf datasets :=
      Finset.Subset.antisymm hsub (fun t ht => (hmem t).mpr (hall t ht))
    rw [hset]

/-- Claim C4, amended, on the manifest of two interleaved groups, whose timesteps are `0`,
`1` and `2`: group `A` has one record in each and 3 mesh samples. -/
theorem C4_count_equals_timesteps_witness :
    (timestepsOf manifestInterleaved).card = 3 ∧
    ((recordsOf manifestInterleaved "A").map (fun d => d.timestep)).Nodup ∧
    ∃ st, process_pvd sampleReader (PvdFile.collection manifestInterleaved) emptyArchive =
        Outcome.done st ∧
      ((st.track "A").mesh.length = (timestepsOf manifestInterleaved).card ↔
        ∀ t ∈ timestepsOf manifestInterleaved,
          ∃ d ∈ manifestInterleaved, d.group = "A" ∧ d.timestep = t) := by
  refine ⟨by decide, by decide, ?_⟩
  obtain ⟨st, hrun, -, hiff⟩ :=
    C4_count_equals_timesteps_iff sampleReader manifestInterleaved emptyArchive "A"
      (by decide) (by decide) (by decide)
  exact ⟨st, hrun, hiff⟩

/-- Claim C5. When `process_pvd` runs to its end, it has added to the top properties of the
archive exactly one property, named by the index of the time sampling followed by
`.samples`, whose value is the number of distinct timestep strings of the manifest, a number
that depends neither on the order of the records nor on how many share a timestep; when the
run stops early, nothing is written. A valid manifest runs to its end. -/
theorem C5_sample_count_distinct_timesteps (reader : String → Option vtkPolyData)
    (datasets : List DataSet) (archive : OArchive) (hlen : datasets.length < 2 ^ 31) :
    ((process_pvd reader (PvdFile.collection datasets) archive).isDone = true →
      (process_pvd reader (PvdFile.collection datasets) archive).state.archive.properties =
        archive.properties ++
          [(sampsampName (archive.addTimeSampling frameSampling).1,
            (datasets.map (fun d => d.timestep)).toFinset.card)]) ∧
    ((process_pvd reader (PvdFile.collection datasets) archive).isDone = false →
      (process_pvd reader (PvdFile.collection datasets) archive).state.archive.properties =
        archive.properties) ∧
    (ValidManifest reader datasets →
      (process_pvd reader (PvdFile.collection datasets) archive).isDone = true) ∧
    (∀ datasets' : List DataSet, datasets'.Perm datasets →
      (datasets'.map (fun d => d.timestep)).toFinset.card =
        (datasets.map (fun d => d.timestep)).toFinset.card) := by
  refine ⟨(process_pvd_properties reader datasets archive hlen).1,
    (process_pvd_properties reader datasets archive hlen).2,
    process_pvd_valid reader datasets archive, ?_⟩
  intro datasets' hperm
  congr 1
  ext t
  simp only [List.mem_toFinset, List.mem_map]
  constructor
  · rintro ⟨d, hd, rfl⟩
    exact ⟨d, hperm.mem_iff.mp hd, rfl⟩
  · rintro ⟨d, hd, rfl⟩
    exact ⟨d, hperm.mem_iff.mpr hd, rfl⟩

/-- Claim C5 on records at timesteps `0` and `1`: the property `1.samples` holds 2. -/
theorem C5_sample_count_witness :
    manifestA.length < 2 ^ 31 ∧
    (process_pvd sampleReader (PvdFile.collection manifestA) emptyArchive).isDone = true ∧
    (process_pvd sampleReader (PvdFile.collection manifestA)
        emptyArchive).state.archive.properties = [("1.samples", 2)] := by
  refine ⟨by decide, by decide, ?_⟩
  rw [(C5_sample_count_distinct_timesteps sampleReader manifestA emptyArchive
    (by decide)).1 (by decide)]
  decide!

/-! ## Normals that fail the checks -/

/-- Claim C11. On a mesh whose normals attribute is absent, or present with a number of
components other than 3, `process_polydata` stops on an assertion and the object is exactly
the one passed in: no mesh sample, no visibility sample and no color sample has been
committed. When all faces are triangles, the assertion that fails is one of the two on the
normals. -/
theorem C11_bad_normals_fail_before_commit (polydata : vtkPolyData) (visible : Bool)
    (vtpabc : VtpAbc)
    (h : polydata.pointData.GetNormals = none ∨
      ∃ n, polydata.pointData.GetNormals = some n ∧ n.numberOfComponents ≠ 3) :
    ∃ e, process_polydata polydata visible vtpabc = Outcome.abort e vtpabc ∧
      (TrianglesOnly polydata → e = Abort.noNormals ∨ e = Abort.normalsWidth) := by
  unfold process_polydata
  cases hcells : cellsLoop polydata.polys ([], []) with
  | none =>
    refine ⟨Abort.notTriangle, rfl, fun htri => ?_⟩
    rw [cellsLoop_triangles _ _ htri] at hcells
    cases hcells
  | some acc =>
    obtain ⟨indices, counts⟩ := acc
    simp only
    cases hcast : vtkFloatArray.SafeDownCast polydata.pointData.GetNormals with
    | none => exact ⟨Abort.noNormals, rfl, fun _ => Or.inl rfl⟩
    | some normals =>
      simp only
      have hwidth : normals.numberOfComponents ≠ 3 := by
        rcases h with hnone | ⟨n, hn, hw⟩
        · rw [hnone] at hcast
          cases hcast
        · rw [hn] at hcast
          unfold vtkFloatArray.SafeDownCast at hcast
          simp only at hcast
          split at hcast
          · cases hcast
            exact hw
          · cases hcast
      rw [if_pos hwidth]
      exact ⟨Abort.normalsWidth, rfl, fun _ => Or.inr rfl⟩

/-- Claim C11 on the triangle without normals and on the triangle whose normals have two
components. -/
theorem C11_bad_normals_witness :
    (∃ e, process_polydata noNormalsMesh true (VtpAbc.new "A") =
        Outcome.abort e (VtpAbc.new "A") ∧
      (TrianglesOnly noNormalsMesh → e = Abort.noNormals ∨ e = Abort.normalsWidth)) ∧
    (∃ e, process_polydata flatNormalsMesh true (VtpAbc.new "A") =
        Outcome.abort e (VtpAbc.new "A") ∧
      (TrianglesOnly flatNormalsMesh → e = Abort.noNormals ∨ e = Abort.normalsWidth)) :=
  ⟨C11_bad_normals_fail_before_commit noNormalsMesh true (VtpAbc.new "A") (Or.inl rfl),
   C11_bad_normals_fail_before_commit flatNormalsMesh true (VtpAbc.new "A")
     (Or.inr ⟨_, rfl, by decide⟩)⟩

/-! ## A color array that fails the check -/

/-- Claim C18. On a mesh with triangles only and valid normals whose selected color array has
a number of components other than 1, `process_polydata` stops on the assertion on the color
array, and the object it leaves has already received the mesh sample and the visibility
sample of the frame: one more mesh sample, one more visibility sample, the color set
untouched. -/
theorem C18_color_failure_after_mesh_commit (polydata : vtkPolyData) (visible : Bool)
    (vtpabc : VtpAbc) (colors : vtkDataArray)
    (htri : TrianglesOnly polydata) (hnorm : NormalsOk polydata)
    (hsel : selectColors polydata.pointData = some colors)
    (hwidth : colors.numberOfComponents ≠ 1) :
    ∃ (vtpabc1 : VtpAbc) (samp : MeshSample),
      process_polydata polydata visible vtpabc = Outcome.abort Abort.colorsWidth vtpabc1 ∧
      vtpabc1.mesh = vtpabc.mesh ++ [samp] ∧
      vtpabc1.mesh.length = vtpabc.mesh.length + 1 ∧
      vtpabc1._visible = vtpabc._visible ++ [if visible = true then -1 else 0] ∧
      vtpabc1._colorset = vtpabc._colorset := by
  obtain ⟨normals, hnormals, hw3, hrange⟩ := NormalsOk_elim polydata hnorm
  obtain ⟨ts, -, hrun⟩ := process_polydata_of_geometry polydata visible vtpabc normals htri
    hnormals hw3 hrange
  rw [hsel] at hrun
  simp only [ne_eq, hwidth, not_false_eq_true, if_true] at hrun
  refine ⟨_, _, hrun, addMeshSample_mesh _ _ _ _ _ _, ?_, addMeshSample_visible _ _ _ _ _ _,
    addMeshSample_colorset _ _ _ _ _ _⟩
  rw [addMeshSample_mesh, List.length_append, List.length_singleton]

/-- Claim C18 on the triangle whose field `Bnn` has two components. -/
theorem C18_color_failure_witness :
    ∃ (vtpabc1 : VtpAbc) (samp : MeshSample),
      process_polydata wideColorMesh true (VtpAbc.new "A") =
        Outcome.abort Abort.colorsWidth vtpabc1 ∧
      vtpabc1.mesh = (VtpAbc.new "A").mesh ++ [samp] ∧
      vtpabc1.mesh.length = (VtpAbc.new "A").mesh.length + 1 ∧
      vtpabc1._visible = (VtpAbc.new "A")._visible ++ [if true = true then -1 else 0] ∧
      vtpabc1._colorset = (VtpAbc.new "A")._colorset :=
  C18_color_failure_after_mesh_commit wideColorMesh true (VtpAbc.new "A")
    { squareBnn with numberOfComponents := 2, data := [0, 0, 0, 0, 0, 0] }
    (by decide) (by decide) rfl (by decide)

/-! ## Points and topology -/

theorem toInt32_of_int32 (x : Int) (h : -2 ^ 31 ≤ x ∧ x < 2 ^ 31) : toInt32 x = x := by
  unfold toInt32
  omega

theorem map_toInt32_of_int32 (l : List Int) (h : ∀ x ∈ l, -2 ^ 31 ≤ x ∧ x < 2 ^ 31) :
    l.map toInt32 = l := by
  induction l with
  | nil => rfl
  | cons x l ih =>
    rw [List.map_cons, toInt32_of_int32 x (h x (List.mem_cons_self _ _)),
      ih (fun y hy => h y (List.mem_cons_of_mem _ hy))]

/-- Claim C16. For a mesh of `P` points whose `N` faces are all triangles: the points loop
yields `3P` floats, the coordinates of the points in point-id order; the cell traversal
succeeds and yields the index list, which is the concatenation of the point ids of the faces
in traversal order narrowed to `int32` (the ids themselves when they fit in an `int32`), of
length `3N`, and the count list, of length `N` with every entry 3. When the normals pass their
checks, these are the positions, indices and counts of the mesh sample committed. -/
theorem C16_points_and_topology (polydata : vtkPolyData) (htri : TrianglesOnly polydata) :
    (pointsLoop polydata.points []).length = 3 * polydata.points.length ∧
    pointsLoop polydata.points [] = flat3 polydata.points ∧
    asV3 (pointsLoop polydata.points []) = polydata.points ∧
    ∃ indices counts, cellsLoop polydata.polys ([], []) = some (indices, counts) ∧
      indices = polydata.polys.flatten.map toInt32 ∧
      ((∀ id ∈ polydata.polys.flatten, -2 ^ 31 ≤ id ∧ id < 2 ^ 31) →
        indices = polydata.polys.flatten) ∧
      indices.length = 3 * polydata.polys.length ∧
      counts.length = polydata.polys.length ∧
      (∀ c ∈ counts, c = 3) ∧
      (NormalsOk polydata → ∀ (visible : Bool) (vtpabc : VtpAbc),
        ∃ samp : MeshSample,
          (process_polydata polydata visible vtpabc).state.mesh = vtpabc.mesh ++ [samp] ∧
          samp.positions = polydata.points ∧ samp.faceIndices = indices ∧
          samp.faceCounts = counts) := by
  have hpts : pointsLoop polydata.points [] = flat3 polydata.points := by
    rw [pointsLoop_eq, List.nil_append]
  refine ⟨by rw [hpts, flat3_length], hpts, by rw [hpts, asV3_flat3], ?_⟩
  refine ⟨polydata.polys.flatten.map toInt32, List.replicate polydata.polys.length 3, ?_, rfl,
    fun hfit => map_toInt32_of_int32 _ hfit, ?_, List.length_replicate _ _,
    fun c hc => (List.mem_replicate.mp hc).2, ?_⟩
  · rw [cellsLoop_triangles _ _ htri]
    simp
  · rw [List.length_map, flatten_length_of_triangles _ htri]
  · intro hnorm visible vtpabc
    obtain ⟨normals, hnormals, hw3, hrange⟩ := NormalsOk_elim polydata hnorm
    obtain ⟨ts, -, hrun⟩ := process_polydata_of_geometry polydata visible vtpabc normals htri
      hnormals hw3 hrange
    refine ⟨{ positions := asV3 (flat3 polydata.points), faceIndices := flatIndices polydata,
              faceCounts := List.replicate polydata.polys.length 3, uvs := [],
              normals := asV3 (flat3 ts) }, ?_, asV3_flat3 _, rfl, rfl⟩
    rw [hrun]
    split
    · rfl
    · split
      · rfl
      · simp only [Outcome.state, addColorSample_mesh]
        rfl

/-- Claim C16 on the square cut in two triangles: 12 floats, 6 indices, 2 counts. -/
theorem C16_points_and_topology_witness :
    TrianglesOnly squareMesh ∧
    (pointsLoop squareMesh.points []).length = 12 ∧
    cellsLoop squareMesh.polys ([], []) = some ([0, 1, 2, 0, 2, 3], [3, 3]) := by
  refine ⟨by decide, ?_, by decide⟩
  have h := (C16_points_and_topology squareMesh (by decide)).1
  exact h

/-! ## The first record of a group that is not seeded -/

/-- Claim C17. For a group other than `source9218` and `source10267`, the first record is
committed visible (code `-1`) exactly when its file string is not empty, and not visible
(code `0`) exactly when it is empty: `last_file[group]` reads the empty string that
`operator[]` inserts for a key it does not hold. -/
theorem C17_unseeded_first_record_visible_iff_nonempty (reader : String → Option vtkPolyData)
    (datasets : List DataSet) (archive : OArchive) (g : String)
    (hg1 : g ≠ "source9218") (hg2 : g ≠ "source10267") :
    ∀ (first : DataSet) (code : Int),
      (recordsOf datasets g)[0]? = some first →
      ((process_pvd reader (PvdFile.collection datasets) archive).state.track g)._visible[0]?
        = some code →
      (code = -1 ↔ first.file ≠ "") ∧ (code = 0 ↔ first.file = "") := by
  intro first code hfirst hcode
  obtain ⟨k, hk⟩ := (process_pvd_visible reader datasets archive g).1
  have hlast : (PvdState.init (archive.addTimeSampling frameSampling).2).lastFile g = "" := by
    rw [init_lastFile, if_neg (fun h => hg1 h.symm), if_neg (fun h => hg2 h.symm)]
  rw [hlast] at hk
  rw [hk] at hcode
  obtain ⟨f, hf, hc⟩ := visCodes_zero _ _ code (getElem?_of_take _ k _ code hcode)
  rw [List.getElem?_map, hfirst] at hf
  simp only [Option.map_some', Option.some.injEq] at hf
  subst hf hc
  exact ⟨(visCode_eq_zero_iff first.file "").2, (visCode_eq_zero_iff first.file "").1⟩

/-- Claim C17 on a first record naming `a.vtm`, committed visible, and on a first record with
an empty file name, committed not visible. -/
theorem C17_unseeded_first_record_witness :
    (((process_pvd sampleReader (PvdFile.collection manifestA)
        emptyArchive).state.track "A")._visible[0]? = some (-1) ∧
      ((-1 : Int) = -1 ↔ (DataSet.mk "0" "A" "a.vtm").file ≠ "")) ∧
    (((process_pvd triangleReader (PvdFile.collection manifestEmptyName)
        emptyArchive).state.track "A")._visible[0]? = some 0 ∧
      ((0 : Int) = 0 ↔ (DataSet.mk "0" "A" "").file = "")) :=
  ⟨⟨by decide,
    (C17_unseeded_first_record_visible_iff_nonempty sampleReader manifestA emptyArchive "A"
      (by decide) (by decide) ⟨"0", "A", "a.vtm"⟩ (-1) (by decide) (by decide)).1⟩,
   ⟨by decide,
    (C17_unseeded_first_record_visible_iff_nonempty triangleReader manifestEmptyName
      emptyArchive "A" (by decide) (by decide) ⟨"0", "A", ""⟩ 0 (by decide) (by decide)).2⟩⟩

/-! ## Index safety -/

theorem GetTupleValue_out_of_range (a : vtkDataArray) (i : Int) (hc : a.numberOfComponents = 3)
    (h : ¬ (0 ≤ i ∧ i.toNat < a.GetNumberOfTuples)) : a.GetTupleValue i = none := by
  unfold vtkDataArray.GetTupleValue
  by_cases h0 : i < 0
  · rw [if_pos h0]
  · rw [if_neg h0, hc]
    have hi : ¬ i.toNat < a.GetNumberOfTuples := fun hlt => h ⟨not_lt.mp h0, hlt⟩
    unfold vtkDataArray.GetNumberOfTuples at hi
    rw [hc] at hi
    have hlen : a.data.length ≤ i.toNat * 3 + 2 := by omega
    rw [List.getElem?_eq_none hlen]
    split <;> simp_all

/-- Claim C19. On a mesh of triangles with float normals of three components: when the
normals hold one tuple per point and every face index `i` satisfies `0 ≤ i < P`, every tuple
read of the normals loop is in range and the mesh sample is committed, and when moreover the
selected color array holds one value per point, the color list has `P` triples and every
index of the color sample is a position in it. `process_polydata` does not test the indices:
when a face index lies outside the tuples of the normals array, the tuple read leaves the
buffer, and the run goes on all the same: the mesh sample and the visibility sample are
committed, the sample carries the stray index, and the normal of that corner is whatever
lies outside the buffer, not a normal of the mesh. -/
theorem C19_index_safety (polydata : vtkPolyData) (visible : Bool) (vtpabc : VtpAbc)
    (normals : vtkDataArray) (htri : TrianglesOnly polydata)
    (hnormals : vtkFloatArray.SafeDownCast polydata.pointData.GetNormals = some normals)
    (hwidth : normals.numberOfComponents = 3) :
    ((∀ i ∈ flatIndices polydata, 0 ≤ i ∧ i.toNat < polydata.points.length) →
      normals.GetNumberOfTuples = polydata.points.length →
      (∀ i ∈ flatIndices polydata, ∃ t, normals.GetTupleValue i = some t) ∧
      (process_polydata polydata visible vtpabc).state.mesh.length = vtpabc.mesh.length + 1 ∧
      ∀ colors, selectColors polydata.pointData = some colors →
        colors.numberOfComponents = 1 → colors.data.length = polydata.points.length →
        ∃ samp : ColorSample,
          (process_polydata polydata visible vtpabc).state._colorset =
            some (vtpabc._colorset.getD [] ++ [samp]) ∧
          samp.colors.length = polydata.points.length ∧
          ∀ j ∈ samp.indices, j < samp.colors.length) ∧
    ((∃ i ∈ flatIndices polydata, ¬ (0 ≤ i ∧ i.toNat < normals.GetNumberOfTuples)) →
      (∃ i ∈ flatIndices polydata, normals.GetTupleValue i = none) ∧
      ∃ samp : MeshSample,
        (process_polydata polydata visible vtpabc).state.mesh = vtpabc.mesh ++ [samp] ∧
        (process_polydata polydata visible vtpabc).state._visible =
          vtpabc._visible ++ [if visible = true then -1 else 0] ∧
        samp.faceIndices = flatIndices polydata ∧
        ∀ (k : Nat) (i : Int), (flatIndices polydata)[k]? = some i →
          normals.GetTupleValue i = none → samp.normals[k]? = some (normals.outside i)) := by
  constructor
  · intro hvalid hperpoint
    have hrange : ∀ i ∈ flatIndices polydata, 0 ≤ i ∧ i.toNat < normals.GetNumberOfTuples :=
      fun i hi => by rw [hperpoint]; exact hvalid i hi
    obtain ⟨ts, -, hrun⟩ := process_polydata_of_geometry polydata visible vtpabc normals htri
      hnormals hwidth hrange
    refine ⟨fun i hi => GetTupleValue_in_range normals i hwidth (hrange i hi).1 (hrange i hi).2,
      ?_, ?_⟩
    · rw [hrun]
      split
      · simp [Outcome.state, addMeshSample_mesh]
      · split
        · simp [Outcome.state, addMeshSample_mesh]
        · simp [Outcome.state, addMeshSample_mesh, addColorSample_mesh]
    · intro colors hsel hw1 hlen
      rw [hrun, hsel]
      simp only [hw1, ne_eq, not_true_eq_false, if_false, Outcome.state]
      refine ⟨{ colors := asV3 (colsLoop colors.data []),
                indices := (flatIndices polydata).map toUInt32 }, ?_, ?_, ?_⟩
      · rw [addColorSample_colorset]
        rfl
      · show (asV3 (colsLoop colors.data [])).length = _
        rw [colsLoop_eq, List.nil_append, asV3_flat3, List.length_map, hlen]
      · intro j hj
        show j < (asV3 (colsLoop colors.data [])).length
        rw [colsLoop_eq, List.nil_append, asV3_flat3, List.length_map, hlen]
        obtain ⟨i, hi, rfl⟩ := List.mem_map.mp hj
        have h0 := hvalid i hi
        unfold flatIndices at hi
        obtain ⟨x, -, rfl⟩ := List.mem_map.mp hi
        rw [toUInt32_of_nonneg_int32 x h0.1]
        exact h0.2
  · rintro ⟨i, hi, hout⟩
    refine ⟨⟨i, hi, GetTupleValue_out_of_range normals i hwidth hout⟩, ?_⟩
    have hrun := process_polydata_of_triangles polydata visible vtpabc normals htri hnormals
      hwidth
    refine ⟨{ positions := asV3 (flat3 polydata.points), faceIndices := flatIndices polydata,
              faceCounts := List.replicate polydata.polys.length 3, uvs := [],
              normals := asV3 (flat3 ((flatIndices polydata).map
                normals.GetTupleValueUnchecked)) }, ?_, ?_, rfl, ?_⟩
    · rw [hrun]
      split
      · rfl
      · split
        · rfl
        · simp only [Outcome.state, addColorSample_mesh]
          rfl
    · rw [hrun]
      split
      · rfl
      · split
        · rfl
        · simp only [Outcome.state, addColorSample_visible]
          rfl
    · intro k j hk hnone
      show (asV3 (flat3 ((flatIndices polydata).map normals.GetTupleValueUnchecked)))[k]? = _
      rw [asV3_flat3, List.getElem?_map, hk, Option.map_some',
        GetTupleValueUnchecked_of_none normals j hnone]

/-- Claim C19 on the square, whose indices all name points, and on the triangle with the
face index 5, which names none of its 3 points: the sample is committed with the index 5 and,
for that corner, the value 7 found outside the buffer of the normals. -/
theorem C19_index_safety_witness :
    (process_polydata squareMesh true (VtpAbc.new "A")).state.mesh.length =
        (VtpAbc.new "A").mesh.length + 1 ∧
    (∃ i ∈ flatIndices strayIndexMesh,
      ¬ (0 ≤ i ∧ i.toNat < (planeNormals 3).GetNumberOfTuples)) ∧
    ∃ samp : MeshSample,
      (process_polydata strayIndexMesh true (VtpAbc.new "A")).state.mesh =
        (VtpAbc.new "A").mesh ++ [samp] ∧
      samp.faceIndices = [0, 1, 5] ∧ samp.normals[2]? = some (7, 7, 7) := by
  refine ⟨((C19_index_safety squareMesh true (VtpAbc.new "A") (planeNormals 4) (by decide) rfl
      rfl).1 (by decide) (by decide)).2.1, ⟨5, by decide, by decide⟩, ?_⟩
  obtain ⟨-, samp, hmesh, -, hidx, hcorner⟩ :=
    (C19_index_safety strayIndexMesh true (VtpAbc.new "A") (planeNormals 3) (by decide) rfl
      rfl).2 ⟨5, by decide, by decide⟩
  exact ⟨samp, hmesh, hidx, hcorner 2 5 rfl rfl⟩

/-! ## Sequences of calls -/

theorem calls_samples (self : VtpAbc) (cs : List Call) :
    (self.calls cs).mesh = self.mesh ++ cs.filterMap Call.meshSample ∧
    (self.calls cs)._visible = self._visible ++ cs.filterMap Call.visibleCode := by
  induction cs generalizing self with
  | nil => simp [VtpAbc.calls]
  | cons c cs ih =>
    have hstep : (self.calls (c :: cs)) = (self.call c).calls cs := rfl
    rw [hstep, (ih (self.call c)).1, (ih (self.call c)).2]
    cases c with
    | addMeshSample points indices counts normals visible =>
      cases visible <;>
        simp [VtpAbc.call, Call.meshSample, Call.visibleCode, addMeshSample_mesh,
          addMeshSample_visible]
    | addColorSample indices colors =>
      simp [VtpAbc.call, Call.meshSample, Call.visibleCode, addColorSample_mesh,
        addColorSample_visible]

theorem filterMap_meshSample_length (cs : List Call) :
    (cs.filterMap Call.meshSample).length = (cs.filterMap Call.visibleCode).length := by
  induction cs with
  | nil => rfl
  | cons c cs ih =>
    cases c with
    | addMeshSample points indices counts normals visible =>
      cases visible <;> simp [Call.meshSample, Call.visibleCode, List.filterMap_cons, ih]
    | addColorSample indices colors =>
      simp [Call.meshSample, Call.visibleCode, List.filterMap_cons, ih]

/-- Claim C14. A call of `addMeshSample` appends exactly one sample to the mesh schema and
exactly one sample to the visibility property, the code `-1` when `visible` is true and `0`
when it is false. Hence after any sequence of calls of the two methods the mesh samples and
the visibility codes of the object are those it had followed by those of the `addMeshSample`
calls, in call order, and an object that starts with as many of the one as of the other,
such as a new one, always holds as many visibility samples as mesh samples. -/
theorem C14_mesh_and_visibility_in_step :
    (∀ (self : VtpAbc) (points : List ℚ) (indices counts : List Int) (normals : List ℚ)
        (visible : Bool),
      (self.addMeshSample points indices counts normals visible).mesh =
        self.mesh ++
          [{ positions := asV3 points, faceIndices := indices, faceCounts := counts,
             uvs := [], normals := asV3 normals }] ∧
      (self.addMeshSample points indices counts normals true)._visible =
        self._visible ++ [-1] ∧
      (self.addMeshSample points indices counts normals false)._visible =
        self._visible ++ [0]) ∧
    (∀ (self : VtpAbc) (cs : List Call),
      (self.calls cs).mesh = self.mesh ++ cs.filterMap Call.meshSample ∧
      (self.calls cs)._visible = self._visible ++ cs.filterMap Call.visibleCode ∧
      (self.calls cs)._visible.length + self.mesh.length =
        (self.calls cs).mesh.length + self._visible.length) ∧
    (∀ (name : String) (cs : List Call),
      ((VtpAbc.new name).calls cs)._visible.length = ((VtpAbc.new name).calls cs).mesh.length) := by
  refine ⟨fun self points indices counts normals visible => ⟨rfl, rfl, rfl⟩, ?_, ?_⟩
  · intro self cs
    obtain ⟨hm, hv⟩ := calls_samples self cs
    refine ⟨hm, hv, ?_⟩
    rw [hm, hv, List.length_append, List.length_append, filterMap_meshSample_length]
    omega
  · intro name cs
    obtain ⟨hm, hv⟩ := calls_samples (VtpAbc.new name) cs
    rw [hm, hv, List.length_append, List.length_append, filterMap_meshSample_length]
    rfl

/-! ## Selection of the color array -/

theorem selectColors_eq_findSome (pointData : vtkPointData) :
    selectColors pointData =
      colorFieldNames.findSome?
        (fun name => vtkDoubleArray.SafeDownCast (pointData.GetScalars name)) := by
  unfold selectColors colorFieldNames
  simp only [List.findSome?]
  cases vtkDoubleArray.SafeDownCast (pointData.GetScalars "Bnn") <;>
    cases vtkDoubleArray.SafeDownCast (pointData.GetScalars "WeylB_NN_AhA.dump") <;>
    cases vtkDoubleArray.SafeDownCast (pointData.GetScalars "WeylB_NN_AhB.dump") <;>
    cases vtkDoubleArray.SafeDownCast (pointData.GetScalars "WeylB_NN_AhC.dump") <;>
    rfl

theorem selectColors_isSome_iff (polydata : vtkPolyData) :
    (selectColors polydata.pointData).isSome = true ↔ CarriesDoubleColorField polydata := by
  rw [selectColors_eq_findSome]
  unfold CarriesDoubleColorField
  rw [List.findSome?_isSome_iff]

/-- Claim C13 fails as stated: the mesh carries an array under the first name, `Bnn`, but as
an array of floats, and the array used for coloring is the one under the second name. -/
theorem C13_first_present_name_skipped :
    (mixedFieldsMesh.pointData.GetScalars "Bnn").isSome = true ∧
    (selectColors mixedFieldsMesh.pointData).map (fun a => a.name) =
      some "WeylB_NN_AhA.dump" := by
  decide

/-- Claim C13, amended. The array used for coloring is the one under the first name, in the
order `Bnn`, `WeylB_NN_AhA.dump`, `WeylB_NN_AhB.dump`, `WeylB_NN_AhC.dump`, under which the
mesh holds an array of doubles: a later name is used only if every earlier one is absent or
holds an array that is not of doubles. If no name holds an array of doubles, in particular if
none of the four is present, there is no array for coloring, and on a mesh with triangles only
and valid normals the call succeeds with the mesh sample committed and the color set
untouched. -/
theorem C13_first_double_array_selected (polydata : vtkPolyData) :
    selectColors polydata.pointData =
      colorFieldNames.findSome?
        (fun name => vtkDoubleArray.SafeDownCast (polydata.pointData.GetScalars name)) ∧
    (∀ colors, selectColors polydata.pointData = some colors →
      ∃ (k : Nat) (name : String), colorFieldNames[k]? = some name ∧
        vtkDoubleArray.SafeDownCast (polydata.pointData.GetScalars name) = some colors ∧
        ∀ (k' : Nat) (name' : String), k' < k → colorFieldNames[k']? = some name' →
          vtkDoubleArray.SafeDownCast (polydata.pointData.GetScalars name') = none) ∧
    ((∀ name ∈ colorFieldNames, polydata.pointData.GetScalars name = none) →
      selectColors polydata.pointData = none) ∧
    (selectColors polydata.pointData = none → TrianglesOnly polydata → NormalsOk polydata →
      ∀ (visible : Bool) (vtpabc : VtpAbc),
        ∃ (vtpabc1 : VtpAbc) (samp : MeshSample),
          process_polydata polydata visible vtpabc = Outcome.done vtpabc1 ∧
          vtpabc1.mesh = vtpabc.mesh ++ [samp] ∧ vtpabc1._colorset = vtpabc._colorset) := by
  refine ⟨selectColors_eq_findSome _, ?_, ?_, ?_⟩
  · intro colors hsel
    unfold selectColors at hsel
    simp only at hsel
    cases h0 : vtkDoubleArray.SafeDownCast (polydata.pointData.GetScalars "Bnn") with
    | some c0 =>
      rw [h0] at hsel
      simp only [Option.isNone_some, Bool.false_eq_true, if_false] at hsel
      refine ⟨0, "Bnn", rfl, by rw [h0, hsel], fun k' name' hk' => absurd hk' (by omega)⟩
    | none =>
      rw [h0] at hsel
      simp only [Option.isNone_none, if_true] at hsel
      cases h1 : vtkDoubleArray.SafeDownCast (polydata.pointData.GetScalars "WeylB_NN_AhA.dump")
        with
      | some c1 =>
        rw [h1] at hsel
        simp only [Option.isNone_some, Bool.false_eq_true, if_false] at hsel
        refine ⟨1, "WeylB_NN_AhA.dump", rfl, by rw [h1, hsel], fun k' name' hk' hn => ?_⟩
        have hk0 : k' = 0 := by omega
        subst hk0
        cases hn
        exact h0
      | none =>
        rw [h1] at hsel
        simp only [Option.isNone_none, if_true] at hsel
        cases h2 :
          vtkDoubleArray.SafeDownCast (polydata.pointData.GetScalars "WeylB_NN_AhB.dump") with
        | some c2 =>
          rw [h2] at hsel
          simp only [Option.isNone_some, Bool.false_eq_true, if_false] at hsel
          refine ⟨2, "WeylB_NN_AhB.dump", rfl, by rw [h2, hsel], fun k' name' hk' hn => ?_⟩
          have hk0 : k' = 0 ∨ k' = 1 := by omega
          rcases hk0 with rfl | rfl
          · cases hn
            exact h0
          · cases hn
            exact h1
        | none =>
          rw [h2] at hsel
          simp only [Option.isNone_none, if_true] at hsel
          refine ⟨3, "WeylB_NN_AhC.dump", rfl, hsel, fun k' name' hk' hn => ?_⟩
          have hk0 : k' = 0 ∨ k' = 1 ∨ k' = 2 := by omega
          rcases hk0 with rfl | rfl | rfl
          · cases hn
            exact h0
          · cases hn
            exact h1
          · cases hn
            exact h2
  · intro habsent
    rw [selectColors_eq_findSome, List.findSome?_eq_none_iff]
    intro name hname
    rw [habsent name hname]
    rfl
  · intro hsel htri hnorm visible vtpabc
    obtain ⟨normals, hnormals, hw3, hrange⟩ := NormalsOk_elim polydata hnorm
    obtain ⟨ts, -, hrun⟩ := process_polydata_of_geometry polydata visible vtpabc normals htri
      hnormals hw3 hrange
    rw [hsel] at hrun
    exact ⟨_, _, hrun, addMeshSample_mesh _ _ _ _ _ _, addMeshSample_colorset _ _ _ _ _ _⟩

/-- Claim C13, amended, on the triangle that carries `Bnn` as floats and `WeylB_NN_AhA.dump`
as doubles, where the second name is used, and on the plain triangle, which carries no field
and gets its mesh sample and no color. -/
theorem C13_first_double_array_witness :
    (∃ (k : Nat) (name : String), colorFieldNames[k]? = some name ∧
      vtkDoubleArray.SafeDownCast (mixedFieldsMesh.pointData.GetScalars name) =
        some doubleWeylA ∧
      ∀ (k' : Nat) (name' : String), k' < k → colorFieldNames[k']? = some name' →
        vtkDoubleArray.SafeDownCast (mixedFieldsMesh.pointData.GetScalars name') = none) ∧
    (∃ (vtpabc1 : VtpAbc) (samp : MeshSample),
      process_polydata triangleMesh true (VtpAbc.new "A") = Outcome.done vtpabc1 ∧
      vtpabc1.mesh = (VtpAbc.new "A").mesh ++ [samp] ∧
      vtpabc1._colorset = (VtpAbc.new "A")._colorset) :=
  ⟨(C13_first_double_array_selected mixedFieldsMesh).2.1 doubleWeylA rfl,
   (C13_first_double_array_selected triangleMesh).2.2.2 rfl (by decide) (by decide) true
     (VtpAbc.new "A")⟩

/-! ## The color set along the loop -/

theorem process_vtm_valid_colorset (reader : String → Option vtkPolyData) (filename : String)
    (visible : Bool) (vtpabc : VtpAbc) (polydata : vtkPolyData)
    (hread : reader filename = some polydata) (h : ValidMesh polydata) :
    ((selectColors polydata.pointData).isSome = false ∧
      (process_vtm reader filename visible vtpabc).state._colorset = vtpabc._colorset) ∨
    ((selectColors polydata.pointData).isSome = true ∧
      ∃ samp, (process_vtm reader filename visible vtpabc).state._colorset =
        some (vtpabc._colorset.getD [] ++ [samp])) := by
  obtain ⟨htri, hnorm, hcol⟩ := h
  obtain ⟨normals, hnormals, hw3, hrange⟩ := NormalsOk_elim polydata hnorm
  obtain ⟨ts, -, hrun⟩ := process_polydata_of_geometry polydata visible vtpabc normals htri
    hnormals hw3 hrange
  unfold process_vtm
  rw [hread]
  simp only
  rw [hrun]
  unfold ColorsOk at hcol
  cases hsel : selectColors polydata.pointData with
  | none => exact Or.inl ⟨rfl, rfl⟩
  | some colors =>
    rw [hsel] at hcol
    simp only at hcol
    right
    refine ⟨rfl, ?_⟩
    simp only [hcol, ne_eq, not_true_eq_false, if_false, Outcome.state]
    exact ⟨_, addColorSample_colorset _ _ _⟩

theorem recordHasColor_eq (reader : String → Option vtkPolyData) (d : DataSet)
    (polydata : vtkPolyData) (hread : reader d.file = some polydata) :
    recordHasColor reader d = (selectColors polydata.pointData).isSome := by
  unfold recordHasColor
  rw [hread]
  simp only
  cases h : (selectColors polydata.pointData).isSome
  · rw [decide_eq_false_iff_not, ← selectColors_isSome_iff, h]
    exact Bool.false_ne_true
  · rw [decide_eq_true_iff, ← selectColors_isSome_iff, h]

theorem colorRecordsOf_cons_other (reader : String → Option vtkPolyData) (d : DataSet)
    (ds : List DataSet) (g : String) (hg : d.group ≠ g) :
    colorRecordsOf reader (d :: ds) g = colorRecordsOf reader ds g := by
  unfold colorRecordsOf
  rw [recordsOf_cons_other d ds g hg]

theorem colorRecordsOf_cons_same (reader : String → Option vtkPolyData) (d : DataSet)
    (ds : List DataSet) :
    colorRecordsOf reader (d :: ds) d.group =
      if recordHasColor reader d = true then d :: colorRecordsOf reader ds d.group
      else colorRecordsOf reader ds d.group := by
  unfold colorRecordsOf
  rw [recordsOf_cons_same, List.filter_cons]

/-- The color samples of the object of `g` after the loop over a valid manifest: one more for
every record of `g` whose mesh has an array for coloring. -/
theorem loop_colorset (reader : String → Option vtkPolyData) (ds : List DataSet)
    (st : PvdState) (g : String) (h : ValidManifest reader ds) :
    ((process_pvd_loop reader ds st).state.track g).colorSamples.length =
        (st.track g).colorSamples.length + (colorRecordsOf reader ds g).length ∧
    (((process_pvd_loop reader ds st).state.track g)._colorset.isSome = true ↔
      (st.track g)._colorset.isSome = true ∨ 1 ≤ (colorRecordsOf reader ds g).length) := by
  induction ds generalizing st with
  | nil =>
    simp [process_pvd_loop, Outcome.state, colorRecordsOf, recordsOf]
  | cons d ds ih =>
    obtain ⟨polydata, hread, hvalid⟩ := ValidManifest_elim reader _ h d (List.mem_cons_self _ _)
    have hdone : (process_pvd_body reader st d).isDone = true := by
      rw [body_isDone]
      exact process_vtm_valid reader d.file _ _ polydata hread hvalid
    rw [loop_cons_done reader d ds st hdone]
    obtain ⟨ihlen, ihsome⟩ := ih (process_pvd_body reader st d).state
      (fun d' hd' => h d' (List.mem_cons_of_mem _ hd'))
    by_cases hg : d.group = g
    · subst hg
      have htrack := body_track reader st d d.group
      rw [if_pos rfl] at htrack
      have hrec := colorRecordsOf_cons_same reader d ds
      have hcolor := recordHasColor_eq reader d polydata hread
      have hstep : ((process_pvd_body reader st d).state.track d.group).colorSamples.length =
            (st.track d.group).colorSamples.length +
              (if recordHasColor reader d = true then 1 else 0) ∧
          (((process_pvd_body reader st d).state.track d.group)._colorset.isSome = true ↔
            (st.track d.group)._colorset.isSome = true ∨ recordHasColor reader d = true) := by
        rw [htrack, hcolor]
        rcases process_vtm_valid_colorset reader d.file (d.file != st.lastFile d.group)
          (st.track d.group) polydata hread hvalid with ⟨hno, hsame⟩ | ⟨hyes, samp, hadd⟩
        · rw [hno]
          simp [VtpAbc.colorSamples, hsame]
        · rw [hyes]
          simp [VtpAbc.colorSamples, hadd]
      obtain ⟨hlen1, hsome1⟩ := hstep
      by_cases hc : recordHasColor reader d = true
      · rw [if_pos hc] at hrec hlen1
        rw [hrec, ihlen, ihsome, hlen1, hsome1, List.length_cons]
        constructor
        · omega
        · constructor
          · intro _
            right
            omega
          · intro _
            left
            right
            exact hc
      · rw [if_neg hc] at hrec hlen1
        rw [hrec, ihlen, ihsome, hlen1, hsome1]
        constructor
        · omega
        · constructor
          · rintro ((h1 | h1) | h1)
            · exact Or.inl h1
            · exact absurd h1 hc
            · exact Or.inr h1
          · rintro (h1 | h1)
            · exact Or.inl (Or.inl h1)
            · exact Or.inr h1
    · rw [ihlen, ihsome, body_step_other reader st d g hg,
        colorRecordsOf_cons_other reader d ds g hg]
      exact ⟨rfl, Iff.rfl⟩

/-- Claim C12 fails as stated: in a valid manifest the single record of group `A` has a mesh
that carries the candidate field `Bnn`, as an array of floats, and the object `A` receives its
mesh sample but no color sample, the color set not being created. -/
theorem C12_field_present_without_color_sample :
    ValidManifest floatFieldReader manifestFloatField ∧
    (fieldRecordsOf floatFieldReader manifestFloatField "A").length = 1 ∧
    ((process_pvd floatFieldReader (PvdFile.collection manifestFloatField)
        emptyArchive).state.track "A").mesh.length = 1 ∧
    ((process_pvd floatFieldReader (PvdFile.collection manifestFloatField)
        emptyArchive).state.track "A")._colorset = none := by
  decide

/-- Claim C12, amended. For a valid manifest and a group `g`, the number of samples committed
to the color set of `g` is the number of records of `g` whose mesh carries an array of doubles
under one of the four candidate names; it is at most the number of mesh samples of `g`; the
color set exists exactly when that number is at least 1; and `addColorSample` creates the color
set only when it does not exist yet, keeping the samples committed before. -/
theorem C12_color_samples_count (reader : String → Option vtkPolyData)
    (datasets : List DataSet) (archive : OArchive) (g : String)
    (hvalid : ValidManifest reader datasets) :
    (∃ st, process_pvd reader (PvdFile.collection datasets) archive = Outcome.done st ∧
      (st.track g).colorSamples.length = (colorRecordsOf reader datasets g).length ∧
      (st.track g).colorSamples.length ≤ (st.track g).mesh.length ∧
      ((st.track g)._colorset.isSome = true ↔
        1 ≤ (colorRecordsOf reader datasets g).length)) ∧
    (∀ (self : VtpAbc) (indices : List Int) (colors : List ℚ),
      ∃ samp, (self.addColorSample indices colors)._colorset =
        some (self.colorSamples ++ [samp])) := by
  have hdone := process_pvd_valid reader datasets archive hvalid
  have hcol := loop_colorset reader datasets
    (PvdState.init (archive.addTimeSampling frameSampling).2) g hvalid
  rw [← process_pvd_track] at hcol
  have hnew : ((PvdState.init (archive.addTimeSampling frameSampling).2).track g)._colorset =
      none := rfl
  have hnew' : ((PvdState.init (archive.addTimeSampling frameSampling).2).track g).colorSamples =
      [] := rfl
  rw [hnew, hnew'] at hcol
  simp only [List.length_nil, Nat.zero_add, Option.isSome_none, Bool.false_eq_true,
    false_or] at hcol
  refine ⟨⟨_, Outcome.eq_done_of_isDone _ hdone, hcol.1, ?_, hcol.2⟩,
    fun self indices colors => ⟨_, addColorSample_colorset self indices colors⟩⟩
  rw [hcol.1, process_pvd_mesh_count reader datasets archive g hdone]
  exact List.length_filter_le _ _

/-- Claim C12, amended, on two frames of group `A`, the first carrying `Bnn` and the second
not: 1 color sample and 2 mesh samples. -/
theorem C12_color_samples_witness :
    ValidManifest sampleReader manifestColorThenNone ∧
    ∃ st, process_pvd sampleReader (PvdFile.collection manifestColorThenNone) emptyArchive =
        Outcome.done st ∧
      (st.track "A").colorSamples.length = 1 ∧ (st.track "A").mesh.length = 2 ∧
      (st.track "A")._colorset.isSome = true := by
  refine ⟨by decide, ?_⟩
  obtain ⟨⟨st, hrun, hlen, -, hsome⟩, -⟩ :=
    C12_color_samples_count sampleReader manifestColorThenNone emptyArchive "A" (by decide)
  refine ⟨st, hrun, hlen, ?_, hsome.mpr (by decide)⟩
  have hst : st = (process_pvd sampleReader (PvdFile.collection manifestColorThenNone)
      emptyArchive).state := by rw [hrun]; rfl
  rw [hst]
  decide

/-! ## The objects held by `vtpabcs` -/

theorem mapSet_keys {α : Type} (m : List (String × α)) (k : String) (v : α) :
    (mapSet m k v).map Prod.fst =
      if k ∈ m.map Prod.fst then m.map Prod.fst else m.map Prod.fst ++ [k] := by
  induction m with
  | nil => simp [mapSet]
  | cons p m ih =>
    obtain ⟨k0, v0⟩ := p
    by_cases h0 : k0 = k
    · subst h0
      simp [mapSet]
    · have h0' : ¬ k = k0 := fun h => h0 h.symm
      simp only [mapSet, if_neg h0, List.map_cons, ih, List.mem_cons, h0', false_or]
      split <;> simp

theorem mapSet_keys_nodup {α : Type} (m : List (String × α)) (k : String) (v : α)
    (h : (m.map Prod.fst).Nodup) : ((mapSet m k v).map Prod.fst).Nodup := by
  rw [mapSet_keys]
  split
  · exact h
  · next hk =>
    rw [List.nodup_append]
    refine ⟨h, List.nodup_singleton k, ?_⟩
    intro a ha hb
    rw [List.mem_singleton] at hb
    subst hb
    exact hk ha

theorem body_vtpabcs (reader : String → Option vtkPolyData) (st : PvdState) (d : DataSet)
    (g : String) :
    mapFind (process_pvd_body reader st d).state.vtpabcs g =
      if d.group = g then
        some (process_vtm reader d.file (d.file != st.lastFile d.group) (st.track d.group)).state
      else mapFind st.vtpabcs g := by
  rw [body_eq]
  cases process_vtm reader d.file (d.file != st.lastFile d.group) (st.track d.group) <;>
    simp only [Outcome.state, mapFind_mapSet]

theorem body_keys_nodup (reader : String → Option vtkPolyData) (st : PvdState) (d : DataSet)
    (h : (st.vtpabcs.map Prod.fst).Nodup) :
    ((process_pvd_body reader st d).state.vtpabcs.map Prod.fst).Nodup := by
  rw [body_eq]
  cases process_vtm reader d.file (d.file != st.lastFile d.group) (st.track d.group) <;>
    exact mapSet_keys_nodup _ _ _ h

theorem addColorSample_xform (self : VtpAbc) (indices : List Int) (colors : List ℚ) :
    (self.addColorSample indices colors)._xform = self._xform := by
  obtain ⟨xform, polymesh, vis, colorset⟩ := self
  cases colorset <;> rfl

/-- Whatever its outcome, `process_vtm` leaves an object with the same name that holds the
samples it held, followed by those of the frame. -/
theorem process_vtm_extends (reader : String → Option vtkPolyData) (filename : String)
    (visible : Bool) (vtpabc : VtpAbc) :
    (process_vtm reader filename visible vtpabc).state._xform = vtpabc._xform ∧
    ∃ m vis, (process_vtm reader filename visible vtpabc).state.mesh = vtpabc.mesh ++ m ∧
      (process_vtm reader filename visible vtpabc).state._visible = vtpabc._visible ++ vis := by
  unfold process_vtm
  split
  · exact ⟨rfl, [], [], by simp [Outcome.state], by simp [Outcome.state]⟩
  · next polydata _ =>
    unfold process_polydata
    split
    · exact ⟨rfl, [], [], by simp [Outcome.state], by simp [Outcome.state]⟩
    · split
      · exact ⟨rfl, [], [], by simp [Outcome.state], by simp [Outcome.state]⟩
      · split
        · exact ⟨rfl, [], [], by simp [Outcome.state], by simp [Outcome.state]⟩
        · split
          · exact ⟨rfl, _, _, addMeshSample_mesh _ _ _ _ _ _,
              addMeshSample_visible _ _ _ _ _ _⟩
          · split
            · exact ⟨rfl, _, _, addMeshSample_mesh _ _ _ _ _ _,
                addMeshSample_visible _ _ _ _ _ _⟩
            · exact ⟨(addColorSample_xform _ _ _).trans rfl, _, _,
                (addColorSample_mesh _ _ _).trans (addMeshSample_mesh _ _ _ _ _ _),
                (addColorSample_visible _ _ _).trans (addMeshSample_visible _ _ _ _ _ _)⟩

theorem loop_append (reader : String → Option vtkPolyData) (pre post : List DataSet)
    (st st1 : PvdState) (h : process_pvd_loop reader pre st = Outcome.done st1) :
    process_pvd_loop reader (pre ++ post) st = process_pvd_loop reader post st1 := by
  induction pre generalizing st with
  | nil =>
    simp only [process_pvd_loop, Outcome.done.injEq] at h
    subst h
    rfl
  | cons d pre ih =>
    rw [List.cons_append, process_pvd_loop]
    rw [process_pvd_loop] at h
    cases hb : process_pvd_body reader st d with
    | done st2 =>
      rw [hb] at h
      exact ih st2 h
    | abort e st2 =>
      rw [hb] at h
      cases h

/-- The keys of `vtpabcs` after the loop: those held before and the groups of the records
that were reached, all the records when the loop ran to its end. -/
theorem loop_keys (reader : String → Option vtkPolyData) (ds : List DataSet) (st : PvdState) :
    ∃ n, n ≤ ds.length ∧
      ((process_pvd_loop reader ds st).isDone = true → n = ds.length) ∧
      ∀ g, (mapFind (process_pvd_loop reader ds st).state.vtpabcs g).isSome = true ↔
        ((mapFind st.vtpabcs g).isSome = true ∨ g ∈ (ds.take n).map (fun d => d.group)) := by
  induction ds generalizing st with
  | nil =>
    exact ⟨0, le_rfl, fun _ => rfl, fun g => by simp [process_pvd_loop, Outcome.state]⟩
  | cons d ds ih =>
    have hbody : ∀ g, (mapFind (process_pvd_body reader st d).state.vtpabcs g).isSome = true ↔
        ((mapFind st.vtpabcs g).isSome = true ∨ g = d.group) := by
      intro g
      rw [body_vtpabcs]
      by_cases hg : d.group = g
      · rw [if_pos hg]
        simp [hg]
      · rw [if_neg hg]
        have hg' : ¬ g = d.group := fun h => hg h.symm
        simp [hg']
    by_cases hdone : (process_pvd_body reader st d).isDone = true
    · rw [loop_cons_done reader d ds st hdone]
      obtain ⟨n, hn, hfull, hkeys⟩ := ih (process_pvd_body reader st d).state
      refine ⟨n + 1, by simp only [List.length_cons]; omega,
        fun h => (by rw [hfull h, List.length_cons]), fun g => ?_⟩
      rw [hkeys g, hbody g, List.take_succ_cons, List.map_cons, List.mem_cons]
      tauto
    · have hfalse : (process_pvd_body reader st d).isDone = false := by
        cases h : (process_pvd_body reader st d).isDone
        · rfl
        · exact absurd h hdone
      obtain ⟨hstate, hnot⟩ := loop_cons_abort reader d ds st hfalse
      rw [hstate, hnot]
      refine ⟨1, by simp only [List.length_cons]; omega, fun h => (by cases h), fun g => ?_⟩
      rw [hbody g]
      simp

theorem loop_keys_nodup (reader : String → Option vtkPolyData) (ds : List DataSet)
    (st : PvdState) (h : (st.vtpabcs.map Prod.fst).Nodup) :
    ((process_pvd_loop reader ds st).state.vtpabcs.map Prod.fst).Nodup := by
  induction ds generalizing st with
  | nil => exact h
  | cons d ds ih =>
    by_cases hdone : (process_pvd_body reader st d).isDone = true
    · rw [loop_cons_done reader d ds st hdone]
      exact ih _ (body_keys_nodup reader st d h)
    · have hfalse : (process_pvd_body reader st d).isDone = false := by
        cases h : (process_pvd_body reader st d).isDone
        · rfl
        · exact absurd h hdone
      rw [(loop_cons_abort reader d ds st hfalse).1]
      exact body_keys_nodup reader st d h

/-- An object held by `vtpabcs` is still held after the loop, under the same key and with the
same name, and it holds the samples it held followed by the new ones. -/
theorem loop_extends (reader : String → Option vtkPolyData) (ds : List DataSet)
    (st : PvdState) (g : String) (v : VtpAbc) (h : mapFind st.vtpabcs g = some v) :
    ∃ v', mapFind (process_pvd_loop reader ds st).state.vtpabcs g = some v' ∧
      v'._xform = v._xform ∧
      ∃ m vis, v'.mesh = v.mesh ++ m ∧ v'._visible = v._visible ++ vis := by
  induction ds generalizing st v with
  | nil => exact ⟨v, h, rfl, [], [], by simp, by simp⟩
  | cons d ds ih =>
    have hbody : ∃ v1, mapFind (process_pvd_body reader st d).state.vtpabcs g = some v1 ∧
        v1._xform = v._xform ∧
        ∃ m vis, v1.mesh = v.mesh ++ m ∧ v1._visible = v._visible ++ vis := by
      rw [body_vtpabcs]
      by_cases hg : d.group = g
      · subst hg
        rw [if_pos rfl]
        have htrack : st.track d.group = v := by
          unfold PvdState.track
          rw [h]
          rfl
        rw [htrack]
        exact ⟨_, rfl, process_vtm_extends reader d.file _ v⟩
      · rw [if_neg hg]
        exact ⟨v, h, rfl, [], [], by simp, by simp⟩
    obtain ⟨v1, hv1, hx1, m1, vis1, hm1, hvis1⟩ := hbody
    by_cases hdone : (process_pvd_body reader st d).isDone = true
    · rw [loop_cons_done reader d ds st hdone]
      obtain ⟨v', hv', hx', m, vis, hm, hvis⟩ := ih (process_pvd_body reader st d).state v1 hv1
      refine ⟨v', hv', by rw [hx', hx1], m1 ++ m, vis1 ++ vis, ?_, ?_⟩
      · rw [hm, hm1, List.append_assoc]
      · rw [hvis, hvis1, List.append_assoc]
    · have hfalse : (process_pvd_body reader st d).isDone = false := by
        cases h : (process_pvd_body reader st d).isDone
        · rfl
        · exact absurd h hdone
      rw [(loop_cons_abort reader d ds st hfalse).1]
      exact ⟨v1, hv1, hx1, m1, vis1, hm1, hvis1⟩

theorem mapFind_eq_some_track (st : PvdState) (g : String)
    (h : (mapFind st.vtpabcs g).isSome = true) : mapFind st.vtpabcs g = some (st.track g) := by
  unfold PvdState.track
  cases hf : mapFind st.vtpabcs g with
  | none => rw [hf] at h; cases h
  | some v => rfl

/-- Claim C15. In the loop of `process_pvd`, started as `process_pvd` starts it: the keys of
`vtpabcs` that hold an object are exactly the groups of the records reached so far (all the
records when the loop ran to its end), each key once; the turn for a record creates the
object of its group when the group has none, which happens on the first record of the group,
hands the object already held to `process_vtm` otherwise, and leaves the objects of the other
groups alone; an object held after a prefix of the manifest is still held, under its key and
with its name, after the whole manifest, with the samples it had followed by the later ones;
and a group without a record, seeded or not, has no object. -/
theorem C15_track_identity (reader : String → Option vtkPolyData) (archive : OArchive) :
    (∀ ds : List DataSet, ∃ n, n ≤ ds.length ∧
      ((process_pvd_loop reader ds (PvdState.init archive)).isDone = true → n = ds.length) ∧
      (∀ g, (mapFind (process_pvd_loop reader ds (PvdState.init archive)).state.vtpabcs
          g).isSome = true ↔ g ∈ (ds.take n).map (fun d => d.group)) ∧
      ((process_pvd_loop reader ds (PvdState.init archive)).state.vtpabcs.map
        Prod.fst).Nodup) ∧
    (∀ (st : PvdState) (d : DataSet),
      (mapFind st.vtpabcs d.group = none →
        mapFind (process_pvd_body reader st d).state.vtpabcs d.group =
          some (process_vtm reader d.file (d.file != st.lastFile d.group)
            (VtpAbc.new d.group)).state) ∧
      (∀ v, mapFind st.vtpabcs d.group = some v →
        mapFind (process_pvd_body reader st d).state.vtpabcs d.group =
          some (process_vtm reader d.file (d.file != st.lastFile d.group) v).state) ∧
      (∀ g, g ≠ d.group →
        mapFind (process_pvd_body reader st d).state.vtpabcs g = mapFind st.vtpabcs g)) ∧
    (∀ (pre post : List DataSet) (st : PvdState),
      process_pvd_loop reader pre (PvdState.init archive) = Outcome.done st →
      ∀ (g : String) (v : VtpAbc), mapFind st.vtpabcs g = some v →
        ∃ v', mapFind (process_pvd_loop reader (pre ++ post)
            (PvdState.init archive)).state.vtpabcs g = some v' ∧
          v'._xform = v._xform ∧
          ∃ m vis, v'.mesh = v.mesh ++ m ∧ v'._visible = v._visible ++ vis) ∧
    (∀ (ds : List DataSet) (g : String), g ∉ ds.map (fun d => d.group) →
      mapFind (process_pvd_loop reader ds (PvdState.init archive)).state.vtpabcs g = none) := by
  have hkeys : ∀ ds : List DataSet, ∃ n, n ≤ ds.length ∧
      ((process_pvd_loop reader ds (PvdState.init archive)).isDone = true → n = ds.length) ∧
      (∀ g, (mapFind (process_pvd_loop reader ds (PvdState.init archive)).state.vtpabcs
          g).isSome = true ↔ g ∈ (ds.take n).map (fun d => d.group)) := by
    intro ds
    obtain ⟨n, hn, hfull, hk⟩ := loop_keys reader ds (PvdState.init archive)
    refine ⟨n, hn, hfull, fun g => ?_⟩
    rw [hk g]
    have hinit : (mapFind (PvdState.init archive).vtpabcs g).isSome = false := rfl
    rw [hinit]
    simp
  refine ⟨fun ds => ?_, fun st d => ⟨fun hnone => ?_, fun v hv => ?_, fun g hg => ?_⟩, ?_, ?_⟩
  · obtain ⟨n, hn, hfull, hk⟩ := hkeys ds
    exact ⟨n, hn, hfull, hk,
      loop_keys_nodup reader ds (PvdState.init archive) List.nodup_nil⟩
  · rw [body_vtpabcs, if_pos rfl]
    have htrack : st.track d.group = VtpAbc.new d.group := by
      unfold PvdState.track
      rw [hnone]
      rfl
    rw [htrack]
  · rw [body_vtpabcs, if_pos rfl]
    have htrack : st.track d.group = v := by
      unfold PvdState.track
      rw [hv]
      rfl
    rw [htrack]
  · rw [body_vtpabcs, if_neg (fun h => hg h.symm)]
  · intro pre post st hpre g v hv
    rw [loop_append reader pre post _ st hpre]
    exact loop_extends reader post st g v hv
  · intro ds g hg
    obtain ⟨n, -, -, hk⟩ := hkeys ds
    cases hfind : mapFind (process_pvd_loop reader ds (PvdState.init archive)).state.vtpabcs g with
    | none => rfl
    | some v =>
      exfalso
      apply hg
      have hmem := (hk g).mp (by rw [hfind]; rfl)
      obtain ⟨d, hd, hdg⟩ := List.mem_map.mp hmem
      exact List.mem_map.mpr ⟨d, List.mem_of_mem_take hd, hdg⟩

/-- Claim C15 on the two records of group `A`: the seeded group `source9218`, which has no
record, has no object, and the object `A` created by the first record is the one that holds
the samples after the second. -/
theorem C15_track_identity_witness :
    mapFind (process_pvd_loop sampleReader manifestA
      (PvdState.init emptyArchive)).state.vtpabcs "source9218" = none ∧
    ∃ v', mapFind (process_pvd_loop sampleReader
        ([DataSet.mk "0" "A" "a.vtm"] ++ [DataSet.mk "1" "A" "b.vtm"])
        (PvdState.init emptyArchive)).state.vtpabcs "A" = some v' ∧
      v'._xform = "A" ∧
      ∃ m vis,
        v'.mesh = ((process_pvd_loop sampleReader [DataSet.mk "0" "A" "a.vtm"]
          (PvdState.init emptyArchive)).state.track "A").mesh ++ m ∧
        v'._visible = [-1] ++ vis := by
  refine ⟨(C15_track_identity sampleReader emptyArchive).2.2.2 manifestA "source9218"
    (by decide), ?_⟩
  obtain ⟨v', hv', hx, m, vis, hm, hvis⟩ :=
    (C15_track_identity sampleReader emptyArchive).2.2.1
      [DataSet.mk "0" "A" "a.vtm"] [DataSet.mk "1" "A" "b.vtm"] _
      (Outcome.eq_done_of_isDone _ (by decide)) "A" _
      (mapFind_eq_some_track _ "A" (by decide))
  exact ⟨v', hv', hx, m, vis, hm, hvis⟩

end VtkToAlembic
